import Mathlib

/-!
# ENDIAN.H: byte-order pinned integer wrappers and byte swaps

A shallow embedding of `src/ENDIAN.H`.

* Unsigned machine integers are natural numbers, truncated explicitly (`% 2 ^ w`) wherever
  the C++ code converts to a narrower type or an operation wraps.  `BYTE` is 8 bits, `WORD`
  and `ushort` 16 bits, `DWORD` and `uint` 32 bits.
* Signed machine integers (`short`, 16 bits; `int`, 32 bits) are integers; the bit operations
  on them act on their two's complement patterns (`bits`, `signed`), `<<` wraps in 32 bits
  and `>>` is the arithmetic shift.
* The anonymous unions `x` of the four classes are modelled by their bytes in address
  order.  Reading or writing the member `whole` goes through the byte order of the
  executing machine, which is a parameter (`Host`) of every operation that touches `whole`.
* The preprocessor names tested by `#ifdef` are the fields of `Config`; every `#ifdef` of the
  header is an `if` on the corresponding field.
* The object `_endian` is declared `extern` and defined outside the header; its content is
  a parameter of the operations that consult it.
-/

namespace Endian

/-! ## Platform and build configuration -/

/-- Byte order of the executing machine. -/
inductive Host where
  | big
  | little
deriving DecidableEq, Repr

/-- Preprocessor names the header tests with `#ifdef`.  `RUN_TIME_ENDIAN` (no leading
underscore) is the name tested at line 90, in `BEWORD::val`. -/
structure Config where
  _BIG_ENDIAN : Bool
  _LITTLE_ENDIAN : Bool
  _RUN_TIME_ENDIAN : Bool
  RUN_TIME_ENDIAN : Bool
deriving DecidableEq, Repr

/-- Content of the object `_endian` (lines 26-30), declared as
`struct union_endian_union { DWORD whole; WORD half[2]; }`. -/
structure union_endian_union where
  whole : Nat
  half0 : Nat
  half1 : Nat
deriving DecidableEq, Repr

/-- Line 32: `inline int big_endian(void) {return _endian.half[1];}`. -/
def big_endian (e : union_endian_union) : Nat := e.half1

/-- Line 33: `inline int little_endian(void) {return _endian.half[0];}`. -/
def little_endian (e : union_endian_union) : Nat := e.half0

/-! ## Storage of the wrappers -/

/-- Bytes of `union { BYTE half[2]; WORD whole; } x`, in address order. -/
structure WordUnion where
  half0 : Nat
  half1 : Nat
deriving DecidableEq, Repr

/-- Bytes of `union { BYTE quarter[4]; DWORD whole; } x`, in address order. -/
structure DwordUnion where
  quarter0 : Nat
  quarter1 : Nat
  quarter2 : Nat
  quarter3 : Nat
deriving DecidableEq, Repr

namespace WordUnion

/-- The stored bytes, lowest address first. -/
def bytes (x : WordUnion) : List Nat := [x.half0, x.half1]

/-- Every stored byte is an 8-bit value. -/
def IsBytes (x : WordUnion) : Prop := x.half0 < 256 ∧ x.half1 < 256

instance (x : WordUnion) : Decidable x.IsBytes := by
  unfold IsBytes; infer_instance

/-- Reading member `whole`: the two bytes taken in the byte order of the machine. -/
def whole (h : Host) (x : WordUnion) : Nat :=
  match h with
  | Host.big => x.half0 * 256 + x.half1
  | Host.little => x.half1 * 256 + x.half0

/-- Writing member `whole` (also through `*((WORD*)x.half)`): the 16-bit value `n` laid out
in the byte order of the machine. -/
def setWhole (h : Host) (_x : WordUnion) (n : Nat) : WordUnion :=
  match h with
  | Host.big => { half0 := n / 256 % 256, half1 := n % 256 }
  | Host.little => { half0 := n % 256, half1 := n / 256 % 256 }

end WordUnion

namespace DwordUnion

/-- The stored bytes, lowest address first. -/
def bytes (x : DwordUnion) : List Nat := [x.quarter0, x.quarter1, x.quarter2, x.quarter3]

/-- Every stored byte is an 8-bit value. -/
def IsBytes (x : DwordUnion) : Prop :=
  x.quarter0 < 256 ∧ x.quarter1 < 256 ∧ x.quarter2 < 256 ∧ x.quarter3 < 256

instance (x : DwordUnion) : Decidable x.IsBytes := by
  unfold IsBytes; infer_instance

/-- Reading member `whole`: the four bytes taken in the byte order of the machine. -/
def whole (h : Host) (x : DwordUnion) : Nat :=
  match h with
  | Host.big =>
      x.quarter0 * 16777216 + x.quarter1 * 65536 + x.quarter2 * 256 + x.quarter3
  | Host.little =>
      x.quarter3 * 16777216 + x.quarter2 * 65536 + x.quarter1 * 256 + x.quarter0

/-- Writing member `whole` (also through `*((DWORD*)x.quarter)`): the 32-bit value `n` laid
out in the byte order of the machine. -/
def setWhole (h : Host) (_x : DwordUnion) (n : Nat) : DwordUnion :=
  match h with
  | Host.big =>
      { quarter0 := n / 16777216 % 256, quarter1 := n / 65536 % 256,
        quarter2 := n / 256 % 256, quarter3 := n % 256 }
  | Host.little =>
      { quarter0 := n % 256, quarter1 := n / 256 % 256,
        quarter2 := n / 65536 % 256, quarter3 := n / 16777216 % 256 }

end DwordUnion

/-! ## class BEWORD (lines 54-104) -/

namespace BEWORD

/-- Lines 62-82, `void set(WORD n)`. -/
def set (c : Config) (h : Host) (e : union_endian_union) (x : WordUnion) (n : Nat) :
    WordUnion :=
  if c._BIG_ENDIAN then
    let x := x.setWhole h n                       -- x.whole = n;
    let x := x.setWhole h n                       -- *((WORD*)x.half)=n;
    x
  else if c._RUN_TIME_ENDIAN && big_endian e != 0 then
    let x := x.setWhole h n                       -- x.whole = n;
    let x := x.setWhole h n                       -- *((WORD*)x.half)=n;
    x
  else
    let x := { x with half0 := (n >>> 8) % 256 }  -- x.half[0] = n >> 8;
    let x := { x with half1 := n % 256 }          -- x.half[1] = n;
    let x := x.setWhole h (x.whole h)             -- x.whole = *((WORD*)(x.half));
    x

/-- Line 83, `BEWORD(WORD n) {set(n);}`; `x0` is the content of the fresh object. -/
def ctor (c : Config) (h : Host) (e : union_endian_union) (x0 : WordUnion) (n : Nat) :
    WordUnion :=
  set c h e x0 n

/-- Lines 84-96, `WORD val(void)`.  The run-time branch is guarded by `RUN_TIME_ENDIAN`, not
`_RUN_TIME_ENDIAN`.  When that name is defined without `_RUN_TIME_ENDIAN` (and without
`_BIG_ENDIAN`) the function `big_endian` is undeclared and the header does not compile; the
model is total and consults `e` there. -/
def val (c : Config) (h : Host) (e : union_endian_union) (x : WordUnion) : Nat :=
  if c._BIG_ENDIAN then
    x.whole h
  else if c.RUN_TIME_ENDIAN && big_endian e != 0 then
    x.whole h
  else
    ((x.half0 <<< 8) ||| x.half1) % 65536

/-- Lines 97-99, `DWORD whole(void)`. -/
def whole (h : Host) (x : WordUnion) : Nat := x.whole h

end BEWORD

/-! ## class LEWORD (lines 161-211) -/

namespace LEWORD

/-- Lines 169-189, `void set(WORD n)`. -/
def set (c : Config) (h : Host) (e : union_endian_union) (x : WordUnion) (n : Nat) :
    WordUnion :=
  if c._LITTLE_ENDIAN then
    let x := x.setWhole h n                       -- x.whole = n;
    let x := x.setWhole h n                       -- *((WORD*)x.half)=n;
    x
  else if c._RUN_TIME_ENDIAN && little_endian e != 0 then
    let x := x.setWhole h n                       -- x.whole = n;
    let x := x.setWhole h n                       -- *((WORD*)x.half)=n;
    x
  else
    let x := { x with half1 := (n >>> 8) % 256 }  -- x.half[1] = n >> 8;
    let x := { x with half0 := n % 256 }          -- x.half[0] = n;
    let x := x.setWhole h (x.whole h)             -- x.whole = *((WORD*)(x.half));
    x

/-- Line 190, `LEWORD(WORD n) {set(n);}`; `x0` is the content of the fresh object. -/
def ctor (c : Config) (h : Host) (e : union_endian_union) (x0 : WordUnion) (n : Nat) :
    WordUnion :=
  set c h e x0 n

/-- Lines 191-203, `WORD val(void)`. -/
def val (c : Config) (h : Host) (e : union_endian_union) (x : WordUnion) : Nat :=
  if c._LITTLE_ENDIAN then
    x.whole h
  else if c._RUN_TIME_ENDIAN && little_endian e != 0 then
    x.whole h
  else
    ((x.half1 <<< 8) ||| x.half0) % 65536

/-- Lines 204-206, `DWORD whole(void)`. -/
def whole (h : Host) (x : WordUnion) : Nat := x.whole h

end LEWORD

/-! ## class BEDWORD (lines 106-159) -/

namespace BEDWORD

/-- Lines 114-136, `void set(DWORD n)`. -/
def set (c : Config) (h : Host) (e : union_endian_union) (x : DwordUnion) (n : Nat) :
    DwordUnion :=
  if c._BIG_ENDIAN then
    let x := x.setWhole h n                            -- x.whole = n;
    let x := x.setWhole h n                            -- *((DWORD*)x.quarter)=n;
    x
  else if c._RUN_TIME_ENDIAN && big_endian e != 0 then
    let x := x.setWhole h n                            -- x.whole = n;
    let x := x.setWhole h n                            -- *((DWORD*)x.quarter)=n;
    x
  else
    let x := { x with quarter0 := (n >>> 24) % 256 }   -- x.quarter[0] = n >> 24;
    let x := { x with quarter1 := (n >>> 16) % 256 }   -- x.quarter[1] = n >> 16;
    let x := { x with quarter2 := (n >>> 8) % 256 }    -- x.quarter[2] = n >> 8;
    let x := { x with quarter3 := n % 256 }            -- x.quarter[3] = n;
    let x := x.setWhole h (x.whole h)                  -- x.whole = *((DWORD*)(x.quarter));
    x

/-- Line 137, `BEDWORD(DWORD n) {set(n);}`; `x0` is the content of the fresh object. -/
def ctor (c : Config) (h : Host) (e : union_endian_union) (x0 : DwordUnion) (n : Nat) :
    DwordUnion :=
  set c h e x0 n

/-- Lines 138-151, `DWORD val(void)`. -/
def val (c : Config) (h : Host) (e : union_endian_union) (x : DwordUnion) : Nat :=
  if c._BIG_ENDIAN then
    x.whole h
  else if c._RUN_TIME_ENDIAN && big_endian e != 0 then
    x.whole h
  else
    ((x.quarter0 <<< 24) % 4294967296 ||| (x.quarter1 <<< 16) % 4294967296 |||
      (x.quarter2 <<< 8) % 4294967296 ||| x.quarter3) % 4294967296

/-- Lines 152-154, `DWORD whole(void)`. -/
def whole (h : Host) (x : DwordUnion) : Nat := x.whole h

end BEDWORD

/-! ## class LEDWORD (lines 213-266) -/

namespace LEDWORD

/-- Lines 221-243, `void set(DWORD n)`. -/
def set (c : Config) (h : Host) (e : union_endian_union) (x : DwordUnion) (n : Nat) :
    DwordUnion :=
  if c._LITTLE_ENDIAN then
    let x := x.setWhole h n                            -- x.whole = n;
    let x := x.setWhole h n                            -- *((DWORD*)x.quarter)=n;
    x
  else if c._RUN_TIME_ENDIAN && little_endian e != 0 then
    let x := x.setWhole h n                            -- x.whole = n;
    let x := x.setWhole h n                            -- *((DWORD*)x.quarter)=n;
    x
  else
    let x := { x with quarter0 := n % 256 }            -- x.quarter[0] = n;
    let x := { x with quarter1 := (n >>> 8) % 256 }    -- x.quarter[1] = n >> 8;
    let x := { x with quarter2 := (n >>> 16) % 256 }   -- x.quarter[2] = n >> 16;
    let x := { x with quarter3 := (n >>> 24) % 256 }   -- x.quarter[3] = n >> 24;
    let x := x.setWhole h (x.whole h)                  -- x.whole = *((DWORD*)(x.quarter));
    x

/-- Line 244, `LEDWORD(DWORD n) {set(n);}`; `x0` is the content of the fresh object. -/
def ctor (c : Config) (h : Host) (e : union_endian_union) (x0 : DwordUnion) (n : Nat) :
    DwordUnion :=
  set c h e x0 n

/-- Lines 245-258, `DWORD val(void)`. -/
def val (c : Config) (h : Host) (e : union_endian_union) (x : DwordUnion) : Nat :=
  if c._LITTLE_ENDIAN then
    x.whole h
  else if c._RUN_TIME_ENDIAN && little_endian e != 0 then
    x.whole h
  else
    (x.quarter0 ||| (x.quarter1 <<< 8) % 4294967296 |||
      (x.quarter2 <<< 16) % 4294967296 ||| (x.quarter3 <<< 24) % 4294967296) % 4294967296

/-- Lines 259-261, `DWORD whole(void)`. -/
def whole (h : Host) (x : DwordUnion) : Nat := x.whole h

end LEDWORD

/-! ## Byte swaps (lines 268-292)

`ushort` and `uint` are the 16-bit and 32-bit unsigned types, `short` and `int` the 16-bit
and 32-bit two's complement types.  Operands narrower than `int` are promoted to `int`
before the shifts; the result is converted back on `return`. -/

/-- Two's complement bit pattern, in `w` bits, of a signed value. -/
def bits (w : Nat) (x : Int) : Nat := (x % 2 ^ w).toNat

/-- Signed value of a `w`-bit two's complement pattern. -/
def signed (w : Nat) (p : Nat) : Int := if p < 2 ^ (w - 1) then (p : Int) else (p : Int) - 2 ^ w

/-- Lines 269-272: `return (val << 8) | (val >> 8 );` on `ushort`. -/
def swap_ushort (val : Nat) : Nat :=
  (((val <<< 8) % 4294967296) ||| (val >>> 8)) % 65536

/-- Lines 275-278: `return (val << 8) | ((val >> 8) & 0xFF);` on `short`.  The promoted
operand is the signed value itself; `<<` wraps in 32 bits, `>>` is the arithmetic shift. -/
def swap_short (val : Int) : Int :=
  signed 16 ((bits 32 (val * 2 ^ 8) ||| (bits 32 (val >>> (8 : Nat)) &&& 0xFF)) % 65536)

/-- Lines 281-285, on `uint`:
`val = ((val << 8) & 0xFF00FF00 ) | ((val >> 8) & 0xFF00FF );`
`return (val << 16) | (val >> 16);` -/
def swap_uint (val : Nat) : Nat :=
  let val := (((val <<< 8) % 4294967296) &&& 0xFF00FF00) ||| ((val >>> 8) &&& 0xFF00FF)
  ((val <<< 16) % 4294967296) ||| (val >>> 16)

/-- Lines 288-292, on `int`:
`val = ((val << 8) & 0xFF00FF00) | ((val >> 8) & 0xFF00FF );`
`return (val << 16) | ((val >> 16) & 0xFFFF);` -/
def swap_int (val : Int) : Int :=
  let val := signed 32 ((bits 32 (val * 2 ^ 8) &&& 0xFF00FF00) |||
    (bits 32 (val >>> (8 : Nat)) &&& 0xFF00FF))
  signed 32 (bits 32 (val * 2 ^ 16) ||| (bits 32 (val >>> (16 : Nat)) &&& 0xFFFF))

/-! ## Build modes that agree with the machine -/

/-- The run-time queries answer truthfully on machine `h`. -/
def ProbeCorrect (h : Host) (e : union_endian_union) : Prop :=
  (big_endian e ≠ 0 ↔ h = Host.big) ∧ (little_endian e ≠ 0 ↔ h = Host.little)

instance (h : Host) (e : union_endian_union) : Decidable (ProbeCorrect h e) := by
  unfold ProbeCorrect; infer_instance

/-- The build mode agrees with the machine: only `_BIG_ENDIAN` is defined and the machine is
big-endian, or only `_LITTLE_ENDIAN` is defined and the machine is little-endian, or only
`_RUN_TIME_ENDIAN` is defined and the probe is correct.  With `_LITTLE_ENDIAN` the name
`RUN_TIME_ENDIAN` is not defined either: line 91 would then call `big_endian`, which is
declared under `_RUN_TIME_ENDIAN` only. -/
def Agrees (c : Config) (h : Host) (e : union_endian_union) : Prop :=
  (c._BIG_ENDIAN = true ∧ c._LITTLE_ENDIAN = false ∧ c._RUN_TIME_ENDIAN = false ∧
      h = Host.big) ∨
  (c._BIG_ENDIAN = false ∧ c._LITTLE_ENDIAN = true ∧ c._RUN_TIME_ENDIAN = false ∧
      c.RUN_TIME_ENDIAN = false ∧ h = Host.little) ∨
  (c._BIG_ENDIAN = false ∧ c._LITTLE_ENDIAN = false ∧ c._RUN_TIME_ENDIAN = true ∧
      ProbeCorrect h e)

instance (c : Config) (h : Host) (e : union_endian_union) : Decidable (Agrees c h e) := by
  unfold Agrees; infer_instance

/-! ## Predicates and comparisons of the four classes

The comparisons yield `int`: 1 for true, 0 for false. -/

namespace BEWORD

/-- Line 100: `int zero(void) {return x.whole == 0;}`. -/
def zero (h : Host) (x : WordUnion) : Nat := if x.whole h = 0 then 1 else 0

/-- Line 101: `int nonzero(void) {return x.whole != 0;}`. -/
def nonzero (h : Host) (x : WordUnion) : Nat := if x.whole h ≠ 0 then 1 else 0

/-- Line 102: `int operator == (BEWORD &n) {return x.whole == n.x.whole;}`. -/
def operator_eq (h : Host) (x n : WordUnion) : Nat := if x.whole h = n.whole h then 1 else 0

/-- Line 103: `int operator != (BEWORD &n) {return x.whole != n.x.whole;}`. -/
def operator_ne (h : Host) (x n : WordUnion) : Nat := if x.whole h ≠ n.whole h then 1 else 0

end BEWORD

namespace BEDWORD

/-- Line 155: `int zero(void) {return x.whole == 0;}`. -/
def zero (h : Host) (x : DwordUnion) : Nat := if x.whole h = 0 then 1 else 0

/-- Line 156: `int nonzero(void) {return x.whole != 0;}`. -/
def nonzero (h : Host) (x : DwordUnion) : Nat := if x.whole h ≠ 0 then 1 else 0

/-- Line 157: `int operator == (BEDWORD &n) {return x.whole == n.x.whole;}`. -/
def operator_eq (h : Host) (x n : DwordUnion) : Nat := if x.whole h = n.whole h then 1 else 0

/-- Line 158: `int operator != (BEDWORD &n) {return x.whole != n.x.whole;}`. -/
def operator_ne (h : Host) (x n : DwordUnion) : Nat := if x.whole h ≠ n.whole h then 1 else 0

end BEDWORD

namespace LEWORD

/-- Line 207: `int zero(void) {return x.whole == 0;}`. -/
def zero (h : Host) (x : WordUnion) : Nat := if x.whole h = 0 then 1 else 0

/-- Line 208: `int nonzero(void) {return x.whole != 0;}`. -/
def nonzero (h : Host) (x : WordUnion) : Nat := if x.whole h ≠ 0 then 1 else 0

/-- Line 209: `int operator == (LEWORD &n) {return x.whole == n.x.whole;}`. -/
def operator_eq (h : Host) (x n : WordUnion) : Nat := if x.whole h = n.whole h then 1 else 0

/-- Line 210: `int operator != (LEWORD &n) {return x.whole != n.x.whole;}`. -/
def operator_ne (h : Host) (x n : WordUnion) : Nat := if x.whole h ≠ n.whole h then 1 else 0

end LEWORD

namespace LEDWORD

/-- Line 262: `int zero(void) {return x.whole == 0;}`. -/
def zero (h : Host) (x : DwordUnion) : Nat := if x.whole h = 0 then 1 else 0

/-- Line 263: `int nonzero(void) {return x.whole != 0;}`. -/
def nonzero (h : Host) (x : DwordUnion) : Nat := if x.whole h ≠ 0 then 1 else 0

/-- Line 264: `int operator == (LEDWORD &n) {return x.whole == n.x.whole;}`. -/
def operator_eq (h : Host) (x n : DwordUnion) : Nat := if x.whole h = n.whole h then 1 else 0

/-- Line 265: `int operator != (LEDWORD &n) {return x.whole != n.x.whole;}`. -/
def operator_ne (h : Host) (x n : DwordUnion) : Nat := if x.whole h ≠ n.whole h then 1 else 0

end LEDWORD

/-! ## The check for consistent parameter definitions (lines 37-52) -/

/-- Lines 39-52: the lines of the `#error` directives the preprocessor reaches, in order.
Line 41 is reached when `_BIG_ENDIAN` and `_LITTLE_ENDIAN` are defined, line 44 when
`_BIG_ENDIAN` and `_RUN_TIME_ENDIAN` are, line 50 when `_LITTLE_ENDIAN` and
`_RUN_TIME_ENDIAN` are.  The build fails when the list is not empty. -/
def consistency_check (c : Config) : List Nat :=
  (if c._BIG_ENDIAN then
      (if c._LITTLE_ENDIAN then [41] else []) ++
      (if c._RUN_TIME_ENDIAN then [44] else [])
    else []) ++
  (if c._LITTLE_ENDIAN then
      (if c._RUN_TIME_ENDIAN then [50] else [])
    else [])

/-- Number of the names `_BIG_ENDIAN`, `_LITTLE_ENDIAN`, `_RUN_TIME_ENDIAN` that are
defined. -/
def Config.defined (c : Config) : Nat :=
  (if c._BIG_ENDIAN then 1 else 0) + (if c._LITTLE_ENDIAN then 1 else 0) +
    (if c._RUN_TIME_ENDIAN then 1 else 0)

/-! ## Arithmetic of the bit operations -/

theorem or_eq_add_of_mul (k a b : Nat) (hb : b < 2 ^ k) :
    (a * 2 ^ k) ||| b = a * 2 ^ k + b := by
  rw [Nat.mul_comm]
  exact (Nat.mul_add_lt_is_or hb a).symm

theorem and_ff (x : Nat) : x &&& 0xFF = x % 256 := Nat.and_pow_two_sub_one_eq_mod x 8

theorem and_ffff (x : Nat) : x &&& 0xFFFF = x % 65536 := Nat.and_pow_two_sub_one_eq_mod x 16

/-! ## The union members: `whole` against the bytes -/

theorem word_setWhole_whole (h : Host) (x y : WordUnion) (hy : y.IsBytes) :
    x.setWhole h (y.whole h) = y := by
  obtain ⟨b0, b1⟩ := y
  obtain ⟨h0, h1⟩ := hy
  simp only at h0 h1
  cases h <;> simp only [WordUnion.setWhole, WordUnion.whole, WordUnion.mk.injEq] <;> omega

theorem word_whole_setWhole (h : Host) (x : WordUnion) (n : Nat) (hn : n < 65536) :
    (x.setWhole h n).whole h = n := by
  cases h <;> simp only [WordUnion.setWhole, WordUnion.whole] <;> omega

theorem dword_setWhole_whole (h : Host) (x y : DwordUnion) (hy : y.IsBytes) :
    x.setWhole h (y.whole h) = y := by
  obtain ⟨b0, b1, b2, b3⟩ := y
  obtain ⟨h0, h1, h2, h3⟩ := hy
  simp only at h0 h1 h2 h3
  cases h <;> simp only [DwordUnion.setWhole, DwordUnion.whole, DwordUnion.mk.injEq] <;> omega

theorem dword_whole_setWhole (h : Host) (x : DwordUnion) (n : Nat)
    (hn : n < 4294967296) : (x.setWhole h n).whole h = n := by
  cases h <;> simp only [DwordUnion.setWhole, DwordUnion.whole] <;> omega

/-! ## Canonical form of `set` in a build mode that agrees with the machine -/

theorem BEWORD_set_eq (c : Config) (h : Host) (e : union_endian_union) (x : WordUnion)
    (v : Nat) (hv : v < 65536) (ha : Agrees c h e) :
    BEWORD.set c h e x v = { half0 := v / 256, half1 := v % 256 } := by
  have hshift : WordUnion.setWhole h { half0 := v / 256 % 256, half1 := v % 256 }
      (WordUnion.whole h { half0 := v / 256 % 256, half1 := v % 256 })
      = { half0 := v / 256, half1 := v % 256 } := by
    rw [word_setWhole_whole]
    · simp; omega
    · constructor <;> simp <;> omega
  have hnat : ∀ y, WordUnion.setWhole Host.big y v = { half0 := v / 256, half1 := v % 256 } := by
    intro y; simp [WordUnion.setWhole]; omega
  rcases ha with ⟨h1, _, _, rfl⟩ | ⟨h1, _, h3, _, rfl⟩ | ⟨h1, _, h3, hb, _⟩
  · simp [BEWORD.set, h1, hnat]
  · simpa [BEWORD.set, h1, h3, Nat.shiftRight_eq_div_pow] using hshift
  · cases h
    · simp at hb
      simp [BEWORD.set, h1, h3, hb, hnat]
    · simp at hb
      simpa [BEWORD.set, h1, h3, hb, Nat.shiftRight_eq_div_pow] using hshift

theorem LEWORD_set_eq (c : Config) (h : Host) (e : union_endian_union) (x : WordUnion)
    (v : Nat) (hv : v < 65536) (ha : Agrees c h e) :
    LEWORD.set c h e x v = { half0 := v % 256, half1 := v / 256 } := by
  have hshift : WordUnion.setWhole h { half0 := v % 256, half1 := v / 256 % 256 }
      (WordUnion.whole h { half0 := v % 256, half1 := v / 256 % 256 })
      = { half0 := v % 256, half1 := v / 256 } := by
    rw [word_setWhole_whole]
    · simp; omega
    · constructor <;> simp <;> omega
  have hnat : ∀ y, WordUnion.setWhole Host.little y v =
      { half0 := v % 256, half1 := v / 256 } := by
    intro y; simp [WordUnion.setWhole]; omega
  rcases ha with ⟨_, h2, h3, rfl⟩ | ⟨_, h2, _, _, rfl⟩ | ⟨_, h2, h3, _, hl⟩
  · simpa [LEWORD.set, h2, h3, Nat.shiftRight_eq_div_pow] using hshift
  · simp [LEWORD.set, h2, hnat]
  · cases h
    · simp at hl
      simpa [LEWORD.set, h2, h3, hl, Nat.shiftRight_eq_div_pow] using hshift
    · simp at hl
      simp [LEWORD.set, h2, h3, hl, hnat]

theorem BEDWORD_set_eq (c : Config) (h : Host) (e : union_endian_union) (x : DwordUnion)
    (v : Nat) (hv : v < 4294967296) (ha : Agrees c h e) :
    BEDWORD.set c h e x v =
      { quarter0 := v / 16777216, quarter1 := v / 65536 % 256,
        quarter2 := v / 256 % 256, quarter3 := v % 256 } := by
  have hshift : DwordUnion.setWhole h
      { quarter0 := v / 16777216 % 256, quarter1 := v / 65536 % 256,
        quarter2 := v / 256 % 256, quarter3 := v % 256 }
      (DwordUnion.whole h
        { quarter0 := v / 16777216 % 256, quarter1 := v / 65536 % 256,
          quarter2 := v / 256 % 256, quarter3 := v % 256 })
      = { quarter0 := v / 16777216, quarter1 := v / 65536 % 256,
          quarter2 := v / 256 % 256, quarter3 := v % 256 } := by
    rw [dword_setWhole_whole]
    · simp; omega
    · refine ⟨?_, ?_, ?_, ?_⟩ <;> simp <;> omega
  have hnat : ∀ y, DwordUnion.setWhole Host.big y v =
      { quarter0 := v / 16777216, quarter1 := v / 65536 % 256,
        quarter2 := v / 256 % 256, quarter3 := v % 256 } := by
    intro y; simp [DwordUnion.setWhole]; omega
  rcases ha with ⟨h1, _, _, rfl⟩ | ⟨h1, _, h3, _, rfl⟩ | ⟨h1, _, h3, hb, _⟩
  · simp [BEDWORD.set, h1, hnat]
  · simpa [BEDWORD.set, h1, h3, Nat.shiftRight_eq_div_pow] using hshift
  · cases h
    · simp at hb
      simp [BEDWORD.set, h1, h3, hb, hnat]
    · simp at hb
      simpa [BEDWORD.set, h1, h3, hb, Nat.shiftRight_eq_div_pow] using hshift

theorem LEDWORD_set_eq (c : Config) (h : Host) (e : union_endian_union) (x : DwordUnion)
    (v : Nat) (hv : v < 4294967296) (ha : Agrees c h e) :
    LEDWORD.set c h e x v =
      { quarter0 := v % 256, quarter1 := v / 256 % 256,
        quarter2 := v / 65536 % 256, quarter3 := v / 16777216 } := by
  have hshift : DwordUnion.setWhole h
      { quarter0 := v % 256, quarter1 := v / 256 % 256,
        quarter2 := v / 65536 % 256, quarter3 := v / 16777216 % 256 }
      (DwordUnion.whole h
        { quarter0 := v % 256, quarter1 := v / 256 % 256,
          quarter2 := v / 65536 % 256, quarter3 := v / 16777216 % 256 })
      = { quarter0 := v % 256, quarter1 := v / 256 % 256,
          quarter2 := v / 65536 % 256, quarter3 := v / 16777216 } := by
    rw [dword_setWhole_whole]
    · simp; omega
    · refine ⟨?_, ?_, ?_, ?_⟩ <;> simp <;> omega
  have hnat : ∀ y, DwordUnion.setWhole Host.little y v =
      { quarter0 := v % 256, quarter1 := v / 256 % 256,
        quarter2 := v / 65536 % 256, quarter3 := v / 16777216 } := by
    intro y; simp [DwordUnion.setWhole]; omega
  rcases ha with ⟨_, h2, h3, rfl⟩ | ⟨_, h2, _, _, rfl⟩ | ⟨_, h2, h3, _, hl⟩
  · simpa [LEDWORD.set, h2, h3, Nat.shiftRight_eq_div_pow] using hshift
  · simp [LEDWORD.set, h2, hnat]
  · cases h
    · simp at hl
      simpa [LEDWORD.set, h2, h3, hl, Nat.shiftRight_eq_div_pow] using hshift
    · simp at hl
      simp [LEDWORD.set, h2, h3, hl, hnat]

theorem or_eq_add (k a b : Nat) (ha : a % 2 ^ k = 0) (hb : b < 2 ^ k) : a ||| b = a + b := by
  have h : a = a / 2 ^ k * 2 ^ k := (Nat.div_mul_cancel (Nat.dvd_of_mod_eq_zero ha)).symm
  rw [h, or_eq_add_of_mul k _ _ hb]

theorem and_ff00ff00 (y : Nat) :
    y &&& 0xFF00FF00 = (y / 256 % 256) * 256 + (y / 16777216 % 256) * 16777216 := by
  have hc : (0xFF00FF00 : Nat) = ((2 ^ 8 - 1) <<< 8) ||| ((2 ^ 8 - 1) <<< 24) := by decide
  have hb : y &&& 0xFF00FF00 =
      (((y >>> 8) &&& (2 ^ 8 - 1)) <<< 8) ||| (((y >>> 24) &&& (2 ^ 8 - 1)) <<< 24) := by
    rw [hc]
    apply Nat.eq_of_testBit_eq
    intro i
    simp only [Nat.testBit_and, Nat.testBit_or, Nat.testBit_shiftLeft, Nat.testBit_shiftRight,
      Nat.testBit_two_pow_sub_one]
    by_cases h8 : 8 ≤ i <;> by_cases h24 : 24 ≤ i <;> simp [h8, h24]
    cases y.testBit i <;> simp
  rw [hb]
  simp only [Nat.and_pow_two_sub_one_eq_mod, Nat.shiftRight_eq_div_pow, Nat.shiftLeft_eq]
  rw [Nat.or_comm, or_eq_add 24 _ _ (by omega) (by omega)]
  omega

theorem and_00ff00ff (y : Nat) :
    y &&& 0xFF00FF = y % 256 + (y / 65536 % 256) * 65536 := by
  have hc : (0xFF00FF : Nat) = (2 ^ 8 - 1) ||| ((2 ^ 8 - 1) <<< 16) := by decide
  have hb : y &&& 0xFF00FF =
      (y &&& (2 ^ 8 - 1)) ||| (((y >>> 16) &&& (2 ^ 8 - 1)) <<< 16) := by
    rw [hc]
    apply Nat.eq_of_testBit_eq
    intro i
    simp only [Nat.testBit_and, Nat.testBit_or, Nat.testBit_shiftLeft, Nat.testBit_shiftRight,
      Nat.testBit_two_pow_sub_one]
    by_cases h16 : 16 ≤ i <;> simp [h16]
    cases y.testBit i <;> simp
  rw [hb]
  simp only [Nat.and_pow_two_sub_one_eq_mod, Nat.shiftRight_eq_div_pow, Nat.shiftLeft_eq]
  rw [Nat.or_comm, or_eq_add 16 _ _ (by omega) (by omega)]
  omega

theorem or_interleave (a b c d : Nat) (hb : b < 256) (hc : c < 256) (hd : d < 256) :
    (c * 256 + a * 16777216) ||| (d + b * 65536) =
      a * 16777216 + b * 65536 + c * 256 + d := by
  have e1 : c * 256 + a * 16777216 = (a * 16777216) ||| (c * 256) := by
    rw [or_eq_add 24 _ _ (by omega) (by omega)]; omega
  have e2 : d + b * 65536 = (b * 65536) ||| d := by
    rw [or_eq_add 16 _ _ (by omega) (by omega)]; omega
  have e3 : ((a * 16777216) ||| (c * 256)) ||| ((b * 65536) ||| d) =
      (((a * 16777216) ||| (b * 65536)) ||| (c * 256)) ||| d := by ac_rfl
  have s1 : (a * 16777216) ||| (b * 65536) = a * 16777216 + b * 65536 :=
    or_eq_add 24 _ _ (by omega) (by omega)
  have s2 : (a * 16777216 + b * 65536) ||| (c * 256) = a * 16777216 + b * 65536 + c * 256 :=
    or_eq_add 16 _ _ (by omega) (by omega)
  have s3 : (a * 16777216 + b * 65536 + c * 256) ||| d =
      a * 16777216 + b * 65536 + c * 256 + d :=
    or_eq_add 8 _ _ (by omega) (by omega)
  rw [e1, e2, e3, s1, s2, s3]

/-! ## Arithmetic form of the unsigned swaps -/

theorem swap_ushort_eq (x : Nat) (hx : x < 65536) :
    swap_ushort x = (x % 256) * 256 + x / 256 := by
  unfold swap_ushort
  rw [Nat.shiftLeft_eq, Nat.shiftRight_eq_div_pow, or_eq_add 8 _ _ (by omega) (by omega)]
  omega

theorem swap_uint_eq (x : Nat) (hx : x < 4294967296) :
    swap_uint x =
      (x % 256) * 16777216 + (x / 256 % 256) * 65536 + (x / 65536 % 256) * 256
        + x / 16777216 := by
  have h1 : ((x <<< 8) % 4294967296) &&& 0xFF00FF00 =
      (x % 256) * 256 + (x / 65536 % 256) * 16777216 := by
    rw [and_ff00ff00, Nat.shiftLeft_eq]; omega
  have h2 : (x >>> 8) &&& 0xFF00FF = (x / 256 % 256) + (x / 16777216) * 65536 := by
    rw [and_00ff00ff, Nat.shiftRight_eq_div_pow]; omega
  unfold swap_uint
  simp only [h1, h2]
  rw [or_interleave _ _ _ _ (by omega) (by omega) (by omega), Nat.shiftLeft_eq,
    Nat.shiftRight_eq_div_pow, or_eq_add 16 _ _ (by omega) (by omega)]
  clear h1 h2
  have hb3 : x / 16777216 < 256 := by omega
  have hb2 : x / 65536 % 256 < 256 := by omega
  have hb1 : x / 256 % 256 < 256 := by omega
  have hb0 : x % 256 < 256 := by omega
  generalize x / 16777216 = b3 at *
  generalize x / 65536 % 256 = b2 at *
  generalize x / 256 % 256 = b1 at *
  generalize x % 256 = b0 at *
  omega

/-! ## Canonical form of `val` in a build mode that agrees with the machine -/

theorem BEWORD_val_eq (c : Config) (h : Host) (e : union_endian_union) (x : WordUnion)
    (hx : x.IsBytes) (ha : Agrees c h e) :
    BEWORD.val c h e x = x.half0 * 256 + x.half1 := by
  obtain ⟨b0, b1⟩ := x
  obtain ⟨h0, h1⟩ := hx
  simp only at h0 h1
  have hshift : ((b0 <<< 8) ||| b1) % 65536 = b0 * 256 + b1 := by
    rw [Nat.shiftLeft_eq, or_eq_add 8 _ _ (by omega) (by omega)]; omega
  rcases ha with ⟨h1, _, _, rfl⟩ | ⟨h1, _, _, h4, rfl⟩ | ⟨h1, _, _, hb, _⟩
  · simp [BEWORD.val, h1, WordUnion.whole]
  · simp [BEWORD.val, h1, h4, hshift]
  · cases h
    · simp at hb
      by_cases hr : c.RUN_TIME_ENDIAN = true
      · simp [BEWORD.val, h1, hr, hb, WordUnion.whole]
      · simp [BEWORD.val, h1, hr, hshift]
    · simp at hb
      simp [BEWORD.val, h1, hb, hshift]

theorem LEWORD_val_eq (c : Config) (h : Host) (e : union_endian_union) (x : WordUnion)
    (hx : x.IsBytes) (ha : Agrees c h e) :
    LEWORD.val c h e x = x.half1 * 256 + x.half0 := by
  obtain ⟨b0, b1⟩ := x
  obtain ⟨h0, h1⟩ := hx
  simp only at h0 h1
  have hshift : ((b1 <<< 8) ||| b0) % 65536 = b1 * 256 + b0 := by
    rw [Nat.shiftLeft_eq, or_eq_add 8 _ _ (by omega) (by omega)]; omega
  rcases ha with ⟨_, h2, h3, rfl⟩ | ⟨_, h2, _, _, rfl⟩ | ⟨_, h2, h3, _, hl⟩
  · simp [LEWORD.val, h2, h3, hshift]
  · simp [LEWORD.val, h2, WordUnion.whole]
  · cases h
    · simp at hl
      simp [LEWORD.val, h2, h3, hl, hshift]
    · simp at hl
      simp [LEWORD.val, h2, h3, hl, WordUnion.whole]

theorem BEDWORD_val_eq (c : Config) (h : Host) (e : union_endian_union) (x : DwordUnion)
    (hx : x.IsBytes) (ha : Agrees c h e) :
    BEDWORD.val c h e x =
      x.quarter0 * 16777216 + x.quarter1 * 65536 + x.quarter2 * 256 + x.quarter3 := by
  obtain ⟨b0, b1, b2, b3⟩ := x
  obtain ⟨h0, h1, h2, h3⟩ := hx
  simp only at h0 h1 h2 h3
  have hshift : ((b0 <<< 24) % 4294967296 ||| (b1 <<< 16) % 4294967296 |||
      (b2 <<< 8) % 4294967296 ||| b3) % 4294967296 =
      b0 * 16777216 + b1 * 65536 + b2 * 256 + b3 := by
    have m0 : (b0 <<< 24) % 4294967296 = b0 * 16777216 := by rw [Nat.shiftLeft_eq]; omega
    have m1 : (b1 <<< 16) % 4294967296 = b1 * 65536 := by rw [Nat.shiftLeft_eq]; omega
    have m2 : (b2 <<< 8) % 4294967296 = b2 * 256 := by rw [Nat.shiftLeft_eq]; omega
    have s1 : (b0 * 16777216) ||| (b1 * 65536) = b0 * 16777216 + b1 * 65536 :=
      or_eq_add 24 _ _ (by omega) (by omega)
    have s2 : (b0 * 16777216 + b1 * 65536) ||| (b2 * 256) =
        b0 * 16777216 + b1 * 65536 + b2 * 256 := or_eq_add 16 _ _ (by omega) (by omega)
    have s3 : (b0 * 16777216 + b1 * 65536 + b2 * 256) ||| b3 =
        b0 * 16777216 + b1 * 65536 + b2 * 256 + b3 := or_eq_add 8 _ _ (by omega) (by omega)
    rw [m0, m1, m2, s1, s2, s3]; omega
  rcases ha with ⟨h1, _, _, rfl⟩ | ⟨h1, _, h3, _, rfl⟩ | ⟨h1, _, h3, hb, _⟩
  · simp [BEDWORD.val, h1, DwordUnion.whole]
  · simp [BEDWORD.val, h1, h3, hshift]
  · cases h
    · simp at hb
      simp [BEDWORD.val, h1, h3, hb, DwordUnion.whole]
    · simp at hb
      simp [BEDWORD.val, h1, h3, hb, hshift]

theorem LEDWORD_val_eq (c : Config) (h : Host) (e : union_endian_union) (x : DwordUnion)
    (hx : x.IsBytes) (ha : Agrees c h e) :
    LEDWORD.val c h e x =
      x.quarter3 * 16777216 + x.quarter2 * 65536 + x.quarter1 * 256 + x.quarter0 := by
  obtain ⟨b0, b1, b2, b3⟩ := x
  obtain ⟨h0, h1, h2, h3⟩ := hx
  simp only at h0 h1 h2 h3
  have hshift : (b0 ||| (b1 <<< 8) % 4294967296 ||| (b2 <<< 16) % 4294967296 |||
      (b3 <<< 24) % 4294967296) % 4294967296 =
      b3 * 16777216 + b2 * 65536 + b1 * 256 + b0 := by
    have m3 : (b3 <<< 24) % 4294967296 = b3 * 16777216 := by rw [Nat.shiftLeft_eq]; omega
    have m2 : (b2 <<< 16) % 4294967296 = b2 * 65536 := by rw [Nat.shiftLeft_eq]; omega
    have m1 : (b1 <<< 8) % 4294967296 = b1 * 256 := by rw [Nat.shiftLeft_eq]; omega
    have s1 : (b1 * 256) ||| b0 = b1 * 256 + b0 := or_eq_add 8 _ _ (by omega) (by omega)
    have s2 : (b2 * 65536) ||| (b1 * 256 + b0) = b2 * 65536 + (b1 * 256 + b0) :=
      or_eq_add 16 _ _ (by omega) (by omega)
    have s3 : (b3 * 16777216) ||| (b2 * 65536 + (b1 * 256 + b0)) =
        b3 * 16777216 + (b2 * 65536 + (b1 * 256 + b0)) :=
      or_eq_add 24 _ _ (by omega) (by omega)
    have e3 : b0 ||| (b1 * 256) ||| (b2 * 65536) ||| (b3 * 16777216) =
        (b3 * 16777216) ||| ((b2 * 65536) ||| ((b1 * 256) ||| b0)) := by ac_rfl
    rw [m1, m2, m3, e3, s1, s2, s3]; omega
  rcases ha with ⟨_, h2, h3, rfl⟩ | ⟨_, h2, _, _, rfl⟩ | ⟨_, h2, h3, _, hl⟩
  · simp [LEDWORD.val, h2, h3, hshift]
  · simp [LEDWORD.val, h2, DwordUnion.whole]
  · cases h
    · simp at hl
      simp [LEDWORD.val, h2, h3, hl, hshift]
    · simp at hl
      simp [LEDWORD.val, h2, h3, hl, DwordUnion.whole]

/-! ## Two's complement patterns -/

theorem bits16_lt (x : Int) : bits 16 x < 65536 := by
  unfold bits; omega

theorem bits32_lt (x : Int) : bits 32 x < 4294967296 := by
  unfold bits; omega

theorem signed16_bits (x : Int) (hlo : -32768 ≤ x) (hhi : x < 32768) :
    signed 16 (bits 16 x) = x := by
  unfold signed bits
  split <;> omega

theorem signed32_bits (x : Int) (hlo : -2147483648 ≤ x) (hhi : x < 2147483648) :
    signed 32 (bits 32 x) = x := by
  unfold signed bits
  split <;> omega

theorem bits16_signed (p : Nat) (hp : p < 65536) : bits 16 (signed 16 p) = p := by
  unfold signed bits
  split <;> omega

theorem bits32_signed (p : Nat) (hp : p < 4294967296) : bits 32 (signed 32 p) = p := by
  unfold signed bits
  split <;> omega

theorem signed16_range (p : Nat) (hp : p < 65536) :
    -32768 ≤ signed 16 p ∧ signed 16 p < 32768 := by
  unfold signed
  split <;> omega

theorem signed32_range (p : Nat) (hp : p < 4294967296) :
    -2147483648 ≤ signed 32 p ∧ signed 32 p < 2147483648 := by
  unfold signed
  split <;> omega

/-! ## The signed swaps on bit patterns -/

theorem sar8 (x : Int) : x >>> (8 : Nat) = x / 256 := by
  rw [Int.shiftRight_eq_div_pow]; norm_num

theorem sar16 (x : Int) : x >>> (16 : Nat) = x / 65536 := by
  rw [Int.shiftRight_eq_div_pow]; norm_num

theorem bits_cast (w : Nat) (y : Int) : ((bits w y : Nat) : Int) = y % 2 ^ w := by
  unfold bits
  exact Int.toNat_of_nonneg (Int.emod_nonneg _ (by positivity))

theorem swap_short_eq (x : Int) :
    swap_short x = signed 16 (swap_ushort (bits 16 x)) := by
  rw [swap_ushort_eq _ (bits16_lt x)]
  unfold swap_short
  have hA := bits_cast 32 (x * 2 ^ 8)
  have hB := bits_cast 32 (x / 256)
  have hP := bits_cast 16 x
  have hp := bits16_lt x
  have cA : bits 32 (x * 2 ^ 8) % 65536 = (bits 16 x % 256) * 256 := by omega
  have cB : bits 32 (x / 256) % 256 = bits 16 x / 256 := by omega
  rw [sar8, and_ff, or_eq_add 8 _ _ (by omega) (by omega), cB]
  congr 1
  omega

theorem swap_int_eq (x : Int) (hlo : -2147483648 ≤ x) (hhi : x < 2147483648) :
    swap_int x = signed 32 (swap_uint (bits 32 x)) := by
  rw [swap_uint_eq _ (bits32_lt x)]
  have h1 : bits 32 (x * 2 ^ 8) &&& 0xFF00FF00 =
      (bits 32 x % 256) * 256 + (bits 32 x / 65536 % 256) * 16777216 := by
    rw [and_ff00ff00]; unfold bits; omega
  have h2 : bits 32 (x >>> (8 : Nat)) &&& 0xFF00FF =
      (bits 32 x / 256 % 256) + (bits 32 x / 16777216) * 65536 := by
    rw [and_00ff00ff, sar8]; unfold bits; omega
  unfold swap_int
  simp only [h1, h2]
  rw [or_interleave _ _ _ _ (by have := bits32_lt x; omega) (by omega) (by omega)]
  have hq := bits32_lt x
  have hb3 : bits 32 x / 16777216 < 256 := by omega
  have hb2 : bits 32 x / 65536 % 256 < 256 := by omega
  have hb1 : bits 32 x / 256 % 256 < 256 := by omega
  have hb0 : bits 32 x % 256 < 256 := by omega
  clear h1 h2
  generalize bits 32 x / 16777216 = b3 at *
  generalize bits 32 x / 65536 % 256 = b2 at *
  generalize bits 32 x / 256 % 256 = b1 at *
  generalize bits 32 x % 256 = b0 at *
  rw [sar16, and_ffff, or_eq_add 16 _ _ (by unfold bits signed; split <;> omega) (by omega)]
  congr 1
  unfold bits signed
  split <;> omega

/-! ## Layout laws -/

/-- C1, 16-bit layout law: for every 16-bit value `v`, every prior content `x` of the wrapper,
either byte order of the machine and every build mode that agrees with it, `BEWORD::set(v)`
leaves the bytes `[v >> 8, v & 0xFF]` and `LEWORD::set(v)` leaves `[v & 0xFF, v >> 8]`; in
particular `BEWORD(0x1234)` stores `[0x12, 0x34]` and `LEWORD(0x1234)` stores
`[0x34, 0x12]`. -/
theorem layout_law_16 (c : Config) (h : Host) (e : union_endian_union) (x : WordUnion)
    (v : Nat) (hv : v < 65536) (ha : Agrees c h e) :
    (BEWORD.set c h e x v).bytes = [v >>> 8, v &&& 0xFF] ∧
    (LEWORD.set c h e x v).bytes = [v &&& 0xFF, v >>> 8] ∧
    (BEWORD.ctor c h e x 0x1234).bytes = [0x12, 0x34] ∧
    (LEWORD.ctor c h e x 0x1234).bytes = [0x34, 0x12] := by
  refine ⟨?_, ?_, ?_, ?_⟩
  · rw [BEWORD_set_eq c h e x v hv ha]
    simp [WordUnion.bytes, and_ff, Nat.shiftRight_eq_div_pow]
  · rw [LEWORD_set_eq c h e x v hv ha]
    simp [WordUnion.bytes, and_ff, Nat.shiftRight_eq_div_pow]
  · rw [BEWORD.ctor, BEWORD_set_eq c h e x 0x1234 (by decide) ha]
    simp [WordUnion.bytes]
  · rw [LEWORD.ctor, LEWORD_set_eq c h e x 0x1234 (by decide) ha]
    simp [WordUnion.bytes]

/-- Instance of `layout_law_16`: the run-time build on a little-endian machine, value
`0xABCD`, prior content `[7, 9]`. -/
theorem layout_law_16_witness :
    (0xABCD < 65536 ∧
      Agrees ⟨false, false, true, false⟩ Host.little ⟨1, 1, 0⟩) ∧
    ((BEWORD.set ⟨false, false, true, false⟩ Host.little ⟨1, 1, 0⟩ ⟨7, 9⟩ 0xABCD).bytes
        = [0xABCD >>> 8, 0xABCD &&& 0xFF] ∧
      (LEWORD.set ⟨false, false, true, false⟩ Host.little ⟨1, 1, 0⟩ ⟨7, 9⟩ 0xABCD).bytes
        = [0xABCD &&& 0xFF, 0xABCD >>> 8] ∧
      (BEWORD.ctor ⟨false, false, true, false⟩ Host.little ⟨1, 1, 0⟩ ⟨7, 9⟩ 0x1234).bytes
        = [0x12, 0x34] ∧
      (LEWORD.ctor ⟨false, false, true, false⟩ Host.little ⟨1, 1, 0⟩ ⟨7, 9⟩ 0x1234).bytes
        = [0x34, 0x12]) :=
  ⟨⟨by decide, by decide⟩,
    layout_law_16 ⟨false, false, true, false⟩ Host.little ⟨1, 1, 0⟩ ⟨7, 9⟩ 0xABCD
      (by decide) (by decide)⟩

/-- C2, 32-bit layout law: for every 32-bit value `v`, either byte order of the machine and
every build mode that agrees with it, `BEDWORD::set(v)` leaves the bytes
`[v>>24, (v>>16)&0xFF, (v>>8)&0xFF, v&0xFF]` and `LEDWORD::set(v)` leaves
`[v&0xFF, (v>>8)&0xFF, (v>>16)&0xFF, v>>24]`; in particular `BEDWORD(0x12345678)` stores
`[0x12,0x34,0x56,0x78]` and `LEDWORD(0x12345678)` stores `[0x78,0x56,0x34,0x12]`. -/
theorem layout_law_32 (c : Config) (h : Host) (e : union_endian_union) (x : DwordUnion)
    (v : Nat) (hv : v < 4294967296) (ha : Agrees c h e) :
    (BEDWORD.set c h e x v).bytes =
      [v >>> 24, (v >>> 16) &&& 0xFF, (v >>> 8) &&& 0xFF, v &&& 0xFF] ∧
    (LEDWORD.set c h e x v).bytes =
      [v &&& 0xFF, (v >>> 8) &&& 0xFF, (v >>> 16) &&& 0xFF, v >>> 24] ∧
    (BEDWORD.ctor c h e x 0x12345678).bytes = [0x12, 0x34, 0x56, 0x78] ∧
    (LEDWORD.ctor c h e x 0x12345678).bytes = [0x78, 0x56, 0x34, 0x12] := by
  refine ⟨?_, ?_, ?_, ?_⟩
  · rw [BEDWORD_set_eq c h e x v hv ha]
    simp [DwordUnion.bytes, and_ff, Nat.shiftRight_eq_div_pow]
  · rw [LEDWORD_set_eq c h e x v hv ha]
    simp [DwordUnion.bytes, and_ff, Nat.shiftRight_eq_div_pow]
  · rw [BEDWORD.ctor, BEDWORD_set_eq c h e x 0x12345678 (by decide) ha]
    simp [DwordUnion.bytes]
  · rw [LEDWORD.ctor, LEDWORD_set_eq c h e x 0x12345678 (by decide) ha]
    simp [DwordUnion.bytes]

/-- Instance of `layout_law_32`: the `_LITTLE_ENDIAN` build on a little-endian machine,
value `0xDEADBEEF`, prior content `[1, 2, 3, 4]`. -/
theorem layout_law_32_witness :
    (0xDEADBEEF < 4294967296 ∧
      Agrees ⟨false, true, false, false⟩ Host.little ⟨0, 0, 0⟩) ∧
    ((BEDWORD.set ⟨false, true, false, false⟩ Host.little ⟨0, 0, 0⟩ ⟨1, 2, 3, 4⟩
          0xDEADBEEF).bytes =
        [0xDEADBEEF >>> 24, (0xDEADBEEF >>> 16) &&& 0xFF, (0xDEADBEEF >>> 8) &&& 0xFF,
          0xDEADBEEF &&& 0xFF] ∧
      (LEDWORD.set ⟨false, true, false, false⟩ Host.little ⟨0, 0, 0⟩ ⟨1, 2, 3, 4⟩
          0xDEADBEEF).bytes =
        [0xDEADBEEF &&& 0xFF, (0xDEADBEEF >>> 8) &&& 0xFF, (0xDEADBEEF >>> 16) &&& 0xFF,
          0xDEADBEEF >>> 24] ∧
      (BEDWORD.ctor ⟨false, true, false, false⟩ Host.little ⟨0, 0, 0⟩ ⟨1, 2, 3, 4⟩
          0x12345678).bytes = [0x12, 0x34, 0x56, 0x78] ∧
      (LEDWORD.ctor ⟨false, true, false, false⟩ Host.little ⟨0, 0, 0⟩ ⟨1, 2, 3, 4⟩
          0x12345678).bytes = [0x78, 0x56, 0x34, 0x12]) :=
  ⟨⟨by decide, by decide⟩,
    layout_law_32 ⟨false, true, false, false⟩ Host.little ⟨0, 0, 0⟩ ⟨1, 2, 3, 4⟩ 0xDEADBEEF
      (by decide) (by decide)⟩

/-! ## Round trips -/

/-- C3, 16-bit round trip: for every 16-bit unsigned value `v` (0 and 0xFFFF included),
either byte order of the machine and every build mode that agrees with it,
`BEWORD(v).val() == v` and `LEWORD(v).val() == v`. -/
theorem round_trip_16 (c : Config) (h : Host) (e : union_endian_union) (x0 : WordUnion)
    (v : Nat) (hv : v < 65536) (ha : Agrees c h e) :
    BEWORD.val c h e (BEWORD.ctor c h e x0 v) = v ∧
    LEWORD.val c h e (LEWORD.ctor c h e x0 v) = v := by
  constructor
  · rw [BEWORD.ctor, BEWORD_set_eq c h e x0 v hv ha, BEWORD_val_eq c h e _ ?_ ha]
    · simp only; omega
    · constructor <;> simp only <;> omega
  · rw [LEWORD.ctor, LEWORD_set_eq c h e x0 v hv ha, LEWORD_val_eq c h e _ ?_ ha]
    · simp only; omega
    · constructor <;> simp only <;> omega

/-- Instance of `round_trip_16`: the all-ones value in the run-time build on a big-endian
machine. -/
theorem round_trip_16_witness :
    (0xFFFF < 65536 ∧ Agrees ⟨false, false, true, false⟩ Host.big ⟨1, 0, 1⟩) ∧
    (BEWORD.val ⟨false, false, true, false⟩ Host.big ⟨1, 0, 1⟩
        (BEWORD.ctor ⟨false, false, true, false⟩ Host.big ⟨1, 0, 1⟩ ⟨0, 0⟩ 0xFFFF) = 0xFFFF ∧
      LEWORD.val ⟨false, false, true, false⟩ Host.big ⟨1, 0, 1⟩
        (LEWORD.ctor ⟨false, false, true, false⟩ Host.big ⟨1, 0, 1⟩ ⟨0, 0⟩ 0xFFFF) = 0xFFFF) :=
  ⟨⟨by decide, by decide⟩,
    round_trip_16 ⟨false, false, true, false⟩ Host.big ⟨1, 0, 1⟩ ⟨0, 0⟩ 0xFFFF
      (by decide) (by decide)⟩

/-- C4, 32-bit round trip: for every 32-bit unsigned value `v` (0 and 0xFFFFFFFF included),
either byte order of the machine and every build mode that agrees with it,
`BEDWORD(v).val() == v` and `LEDWORD(v).val() == v`. -/
theorem round_trip_32 (c : Config) (h : Host) (e : union_endian_union) (x0 : DwordUnion)
    (v : Nat) (hv : v < 4294967296) (ha : Agrees c h e) :
    BEDWORD.val c h e (BEDWORD.ctor c h e x0 v) = v ∧
    LEDWORD.val c h e (LEDWORD.ctor c h e x0 v) = v := by
  constructor
  · rw [BEDWORD.ctor, BEDWORD_set_eq c h e x0 v hv ha, BEDWORD_val_eq c h e _ ?_ ha]
    · simp only; omega
    · refine ⟨?_, ?_, ?_, ?_⟩ <;> simp only <;> omega
  · rw [LEDWORD.ctor, LEDWORD_set_eq c h e x0 v hv ha, LEDWORD_val_eq c h e _ ?_ ha]
    · simp only; omega
    · refine ⟨?_, ?_, ?_, ?_⟩ <;> simp only <;> omega

/-- Instance of `round_trip_32`: the all-ones value in the `_BIG_ENDIAN` build on a
big-endian machine. -/
theorem round_trip_32_witness :
    (0xFFFFFFFF < 4294967296 ∧ Agrees ⟨true, false, false, false⟩ Host.big ⟨0, 0, 0⟩) ∧
    (BEDWORD.val ⟨true, false, false, false⟩ Host.big ⟨0, 0, 0⟩
        (BEDWORD.ctor ⟨true, false, false, false⟩ Host.big ⟨0, 0, 0⟩ ⟨0, 0, 0, 0⟩ 0xFFFFFFFF)
        = 0xFFFFFFFF ∧
      LEDWORD.val ⟨true, false, false, false⟩ Host.big ⟨0, 0, 0⟩
        (LEDWORD.ctor ⟨true, false, false, false⟩ Host.big ⟨0, 0, 0⟩ ⟨0, 0, 0, 0⟩ 0xFFFFFFFF)
        = 0xFFFFFFFF) :=
  ⟨⟨by decide, by decide⟩,
    round_trip_32 ⟨true, false, false, false⟩ Host.big ⟨0, 0, 0⟩ ⟨0, 0, 0, 0⟩ 0xFFFFFFFF
      (by decide) (by decide)⟩

/-- C5, `val` inverts `set` in the other direction: for each of the four wrappers and every
stored byte content (bytes produced by `set` or not), on either byte order of the machine
and in every build mode that agrees with it, `set(val())` leaves the stored bytes as they
were. -/
theorem set_val_restores (c : Config) (h : Host) (e : union_endian_union)
    (b : WordUnion) (d : DwordUnion) (hb : b.IsBytes) (hd : d.IsBytes)
    (ha : Agrees c h e) :
    BEWORD.set c h e b (BEWORD.val c h e b) = b ∧
    LEWORD.set c h e b (LEWORD.val c h e b) = b ∧
    BEDWORD.set c h e d (BEDWORD.val c h e d) = d ∧
    LEDWORD.set c h e d (LEDWORD.val c h e d) = d := by
  have hb2 := hb
  have hd2 := hd
  obtain ⟨b0, b1⟩ := b
  obtain ⟨d0, d1, d2, d3⟩ := d
  obtain ⟨p0, p1⟩ := hb2
  obtain ⟨q0, q1, q2, q3⟩ := hd2
  simp only at p0 p1 q0 q1 q2 q3
  refine ⟨?_, ?_, ?_, ?_⟩
  · rw [BEWORD_val_eq c h e _ hb ha, BEWORD_set_eq c h e _ _ (by simp only; omega) ha]
    simp only [WordUnion.mk.injEq]; omega
  · rw [LEWORD_val_eq c h e _ hb ha, LEWORD_set_eq c h e _ _ (by simp only; omega) ha]
    simp only [WordUnion.mk.injEq]; omega
  · rw [BEDWORD_val_eq c h e _ hd ha, BEDWORD_set_eq c h e _ _ (by simp only; omega) ha]
    simp only [DwordUnion.mk.injEq]; omega
  · rw [LEDWORD_val_eq c h e _ hd ha, LEDWORD_set_eq c h e _ _ (by simp only; omega) ha]
    simp only [DwordUnion.mk.injEq]; omega

/-- Instance of `set_val_restores`: arbitrary bytes in the run-time build on a
little-endian machine. -/
theorem set_val_restores_witness :
    (WordUnion.IsBytes ⟨0x80, 0xFF⟩ ∧ DwordUnion.IsBytes ⟨0xFF, 0x00, 0x80, 0x01⟩ ∧
      Agrees ⟨false, false, true, false⟩ Host.little ⟨1, 1, 0⟩) ∧
    (BEWORD.set ⟨false, false, true, false⟩ Host.little ⟨1, 1, 0⟩ ⟨0x80, 0xFF⟩
        (BEWORD.val ⟨false, false, true, false⟩ Host.little ⟨1, 1, 0⟩ ⟨0x80, 0xFF⟩)
        = ⟨0x80, 0xFF⟩ ∧
      LEWORD.set ⟨false, false, true, false⟩ Host.little ⟨1, 1, 0⟩ ⟨0x80, 0xFF⟩
        (LEWORD.val ⟨false, false, true, false⟩ Host.little ⟨1, 1, 0⟩ ⟨0x80, 0xFF⟩)
        = ⟨0x80, 0xFF⟩ ∧
      BEDWORD.set ⟨false, false, true, false⟩ Host.little ⟨1, 1, 0⟩ ⟨0xFF, 0x00, 0x80, 0x01⟩
        (BEDWORD.val ⟨false, false, true, false⟩ Host.little ⟨1, 1, 0⟩
          ⟨0xFF, 0x00, 0x80, 0x01⟩) = ⟨0xFF, 0x00, 0x80, 0x01⟩ ∧
      LEDWORD.set ⟨false, false, true, false⟩ Host.little ⟨1, 1, 0⟩ ⟨0xFF, 0x00, 0x80, 0x01⟩
        (LEDWORD.val ⟨false, false, true, false⟩ Host.little ⟨1, 1, 0⟩
          ⟨0xFF, 0x00, 0x80, 0x01⟩) = ⟨0xFF, 0x00, 0x80, 0x01⟩) :=
  ⟨⟨by decide, by decide, by decide⟩,
    set_val_restores ⟨false, false, true, false⟩ Host.little ⟨1, 1, 0⟩ ⟨0x80, 0xFF⟩
      ⟨0xFF, 0x00, 0x80, 0x01⟩ (by decide) (by decide) (by decide)⟩

/-! ## Byte swaps -/

theorem swap_ushort_bytes (b1 b0 : Nat) (h1 : b1 < 256) (h0 : b0 < 256) :
    swap_ushort (b1 * 256 + b0) = b0 * 256 + b1 := by
  rw [swap_ushort_eq _ (by omega)]; omega

theorem swap_uint_bytes (b3 b2 b1 b0 : Nat) (h3 : b3 < 256) (h2 : b2 < 256) (h1 : b1 < 256)
    (h0 : b0 < 256) :
    swap_uint (b3 * 16777216 + b2 * 65536 + b1 * 256 + b0) =
      b0 * 16777216 + b1 * 65536 + b2 * 256 + b3 := by
  rw [swap_uint_eq _ (by omega)]; omega

theorem swap_ushort_twice (x : Nat) (hx : x < 65536) : swap_ushort (swap_ushort x) = x := by
  rw [swap_ushort_eq x hx, swap_ushort_bytes _ _ (by omega) (by omega)]; omega

theorem swap_uint_twice (y : Nat) (hy : y < 4294967296) : swap_uint (swap_uint y) = y := by
  rw [swap_uint_eq y hy, swap_uint_bytes _ _ _ _ (by omega) (by omega) (by omega) (by omega)]
  omega

theorem swap_ushort_lt (x : Nat) : swap_ushort x < 65536 := by
  unfold swap_ushort; omega

theorem swap_uint_lt (y : Nat) (hy : y < 4294967296) : swap_uint y < 4294967296 := by
  rw [swap_uint_eq y hy]; omega

/-- C6, unsigned swap involution: `swap_ushort(swap_ushort(x)) == x` for every 16-bit
unsigned `x` (the result of each call truncated to 16 bits after integer promotion), and
`swap_uint(swap_uint(y)) == y` for every 32-bit unsigned `y`. -/
theorem swap_unsigned_involution (x y : Nat) (hx : x < 65536) (hy : y < 4294967296) :
    swap_ushort (swap_ushort x) = x ∧ swap_uint (swap_uint y) = y := by
  exact ⟨swap_ushort_twice x hx, swap_uint_twice y hy⟩

/-- Instance of `swap_unsigned_involution` at `0x80FF` and `0xFF00807F`. -/
theorem swap_unsigned_involution_witness :
    (0x80FF < 65536 ∧ 0xFF00807F < 4294967296) ∧
    (swap_ushort (swap_ushort 0x80FF) = 0x80FF ∧
      swap_uint (swap_uint 0xFF00807F) = 0xFF00807F) :=
  ⟨⟨by decide, by decide⟩, swap_unsigned_involution 0x80FF 0xFF00807F (by decide) (by decide)⟩

/-- C7, signed swap involution: with two's complement values, arithmetic right shift and
wrap-around on narrowing, `swap_short(swap_short(x)) == x` for every 16-bit signed `x`
(negative values and -32768 included) and `swap_int(swap_int(y)) == y` for every 32-bit
signed `y` (negative values and INT_MIN included). -/
theorem swap_signed_involution (x y : Int) (hxlo : -32768 ≤ x) (hxhi : x < 32768)
    (hylo : -2147483648 ≤ y) (hyhi : y < 2147483648) :
    swap_short (swap_short x) = x ∧ swap_int (swap_int y) = y := by
  have hp := bits16_lt x
  have hq := bits32_lt y
  constructor
  · have h1 := swap_ushort_lt (bits 16 x)
    have h2 := swap_ushort_twice (bits 16 x) hp
    rw [swap_short_eq x, swap_short_eq, bits16_signed _ h1, h2, signed16_bits x hxlo hxhi]
  · have h1 := swap_uint_lt (bits 32 y) hq
    have h2 := swap_uint_twice (bits 32 y) hq
    have r := signed32_range _ h1
    rw [swap_int_eq y hylo hyhi, swap_int_eq _ r.1 r.2, bits32_signed _ h1, h2,
      signed32_bits y hylo hyhi]

/-- Instance of `swap_signed_involution` at the most negative values. -/
theorem swap_signed_involution_witness :
    ((-32768 : Int) ≤ -32768 ∧ (-32768 : Int) < 32768 ∧
      (-2147483648 : Int) ≤ -2147483648 ∧ (-2147483648 : Int) < 2147483648) ∧
    (swap_short (swap_short (-32768)) = -32768 ∧
      swap_int (swap_int (-2147483648)) = -2147483648) :=
  ⟨⟨by decide, by decide, by decide, by decide⟩,
    swap_signed_involution (-32768) (-2147483648) (by decide) (by decide) (by decide)
      (by decide)⟩

/-- C8, the unsigned swaps reverse the byte order: for every 16-bit `x`,
`swap_ushort(x) == ((x & 0xFF) << 8) | (x >> 8)`; for every 32-bit value with bytes
`b3 b2 b1 b0` (most significant first), `swap_uint` returns the value with bytes
`b0 b1 b2 b3`.  Neither function takes the byte order of the machine or the build mode. -/
theorem swap_unsigned_reverses (x b3 b2 b1 b0 : Nat) (hx : x < 65536)
    (h3 : b3 < 256) (h2 : b2 < 256) (h1 : b1 < 256) (h0 : b0 < 256) :
    swap_ushort x = ((x &&& 0xFF) <<< 8) ||| (x >>> 8) ∧
    swap_uint (b3 * 16777216 + b2 * 65536 + b1 * 256 + b0) =
      b0 * 16777216 + b1 * 65536 + b2 * 256 + b3 := by
  constructor
  · rw [swap_ushort_eq x hx, and_ff, Nat.shiftLeft_eq, Nat.shiftRight_eq_div_pow,
      or_eq_add 8 _ _ (by omega) (by omega)]
  · rw [swap_uint_eq _ (by omega)]
    omega

/-- Instance of `swap_unsigned_reverses` at `0x1234` and `0x12345678`. -/
theorem swap_unsigned_reverses_witness :
    (0x1234 < 65536 ∧ 0x12 < 256 ∧ 0x34 < 256 ∧ 0x56 < 256 ∧ 0x78 < 256) ∧
    (swap_ushort 0x1234 = ((0x1234 &&& 0xFF) <<< 8) ||| (0x1234 >>> 8) ∧
      swap_uint (0x12 * 16777216 + 0x34 * 65536 + 0x56 * 256 + 0x78) =
        0x78 * 16777216 + 0x56 * 65536 + 0x34 * 256 + 0x12) :=
  ⟨⟨by decide, by decide, by decide, by decide, by decide⟩,
    swap_unsigned_reverses 0x1234 0x12 0x34 0x56 0x78 (by decide) (by decide) (by decide)
      (by decide) (by decide)⟩

/-- C9, the signed swaps act on the bit pattern only: for every 16-bit signed `x` the two's
complement pattern of `swap_short(x)` is `swap_ushort` of the pattern of `x`, and for every
32-bit signed `y` the pattern of `swap_int(y)` is `swap_uint` of the pattern of `y`. -/
theorem swap_signed_pattern (x y : Int) (_hxlo : -32768 ≤ x) (_hxhi : x < 32768)
    (hylo : -2147483648 ≤ y) (hyhi : y < 2147483648) :
    bits 16 (swap_short x) = swap_ushort (bits 16 x) ∧
    bits 32 (swap_int y) = swap_uint (bits 32 y) := by
  have hq := bits32_lt y
  constructor
  · rw [swap_short_eq x, bits16_signed _ (swap_ushort_lt _)]
  · rw [swap_int_eq y hylo hyhi, bits32_signed _ (swap_uint_lt _ hq)]

/-- Instance of `swap_signed_pattern` at `-2` and `-2147483648`. -/
theorem swap_signed_pattern_witness :
    ((-32768 : Int) ≤ -2 ∧ (-2 : Int) < 32768 ∧
      (-2147483648 : Int) ≤ -2147483648 ∧ (-2147483648 : Int) < 2147483648) ∧
    (bits 16 (swap_short (-2)) = swap_ushort (bits 16 (-2)) ∧
      bits 32 (swap_int (-2147483648)) = swap_uint (bits 32 (-2147483648))) :=
  ⟨⟨by decide, by decide, by decide, by decide⟩,
    swap_signed_pattern (-2) (-2147483648) (by decide) (by decide) (by decide) (by decide)⟩

/-! ## Cross-order consistency -/

/-- C10, cross-order consistency: for every 16-bit value `v`, either byte order of the
machine and every build mode that agrees with it,
`BEWORD(v).whole() == swap_ushort(LEWORD(v).whole())`; the `DWORD` returned by `whole()` is
converted to `ushort` at the call. -/
theorem cross_order_16 (c : Config) (h : Host) (e : union_endian_union)
    (x0 y0 : WordUnion) (v : Nat) (hv : v < 65536) (ha : Agrees c h e) :
    BEWORD.whole h (BEWORD.ctor c h e x0 v) =
      swap_ushort (LEWORD.whole h (LEWORD.ctor c h e y0 v) % 65536) := by
  rw [BEWORD.ctor, LEWORD.ctor, BEWORD_set_eq c h e x0 v hv ha,
    LEWORD_set_eq c h e y0 v hv ha]
  have h1 : v / 256 < 256 := by omega
  have h0 : v % 256 < 256 := by omega
  cases h <;> simp only [BEWORD.whole, LEWORD.whole, WordUnion.whole]
  · rw [Nat.mod_eq_of_lt (show v % 256 * 256 + v / 256 < 65536 by omega),
      swap_ushort_bytes _ _ h0 h1]
  · rw [Nat.mod_eq_of_lt (show v / 256 * 256 + v % 256 < 65536 by omega),
      swap_ushort_bytes _ _ h1 h0]

/-- Instance of `cross_order_16`: `0xABCD` in the `_LITTLE_ENDIAN` build on a little-endian
machine. -/
theorem cross_order_16_witness :
    (0xABCD < 65536 ∧ Agrees ⟨false, true, false, false⟩ Host.little ⟨0, 0, 0⟩) ∧
    BEWORD.whole Host.little
        (BEWORD.ctor ⟨false, true, false, false⟩ Host.little ⟨0, 0, 0⟩ ⟨0, 0⟩ 0xABCD) =
      swap_ushort (LEWORD.whole Host.little
        (LEWORD.ctor ⟨false, true, false, false⟩ Host.little ⟨0, 0, 0⟩ ⟨5, 6⟩ 0xABCD)
          % 65536) :=
  ⟨⟨by decide, by decide⟩,
    cross_order_16 ⟨false, true, false, false⟩ Host.little ⟨0, 0, 0⟩ ⟨0, 0⟩ ⟨5, 6⟩ 0xABCD
      (by decide) (by decide)⟩

/-! ## Raw view -/

/-- C11, raw view: `whole()` is the stored bytes read in the byte order of the machine.  In
a build mode that agrees with the machine, for every 16-bit `v`: on a big-endian machine
`BEWORD(v).whole() == v` and the stored bytes are those of naive native storage; on a
little-endian machine `BEWORD(v).whole() == swap_ushort(v)` and the stored bytes differ from
naive native storage exactly when the two bytes of `v` differ.  For `v = 0xABCD` the wrapper
stores `{0xAB, 0xCD}` while naive storage on a little-endian machine is `{0xCD, 0xAB}`. -/
theorem raw_view_16 (c : Config) (h : Host) (e : union_endian_union) (x0 : WordUnion)
    (v : Nat) (hv : v < 65536) (ha : Agrees c h e) :
    (∀ x : WordUnion, BEWORD.whole h x = x.whole h) ∧
    (h = Host.big →
      BEWORD.whole h (BEWORD.ctor c h e x0 v) = v ∧
      (BEWORD.ctor c h e x0 v).bytes = (x0.setWhole h v).bytes) ∧
    (h = Host.little →
      BEWORD.whole h (BEWORD.ctor c h e x0 v) = swap_ushort v ∧
      ((BEWORD.ctor c h e x0 v).bytes ≠ (x0.setWhole h v).bytes ↔ v >>> 8 ≠ v &&& 0xFF)) ∧
    (BEWORD.ctor c h e x0 0xABCD).bytes = [0xAB, 0xCD] ∧
    (x0.setWhole Host.little 0xABCD).bytes = [0xCD, 0xAB] := by
  refine ⟨fun _ => rfl, ?_, ?_, ?_, ?_⟩
  · rintro rfl
    rw [BEWORD.ctor, BEWORD_set_eq c _ e x0 v hv ha]
    simp only [BEWORD.whole, WordUnion.whole, WordUnion.setWhole, WordUnion.bytes]
    refine ⟨by omega, ?_⟩
    congr 2
    omega
  · rintro rfl
    rw [BEWORD.ctor, BEWORD_set_eq c _ e x0 v hv ha, swap_ushort_eq v hv, and_ff,
      Nat.shiftRight_eq_div_pow]
    simp only [BEWORD.whole, WordUnion.whole, WordUnion.setWhole, WordUnion.bytes]
    refine ⟨trivial, ?_⟩
    simp only [ne_eq, List.cons.injEq, and_true]
    omega
  · rw [BEWORD.ctor, BEWORD_set_eq c h e x0 0xABCD (by decide) ha]
    simp [WordUnion.bytes]
  · simp [WordUnion.setWhole, WordUnion.bytes]

/-- Instance of `raw_view_16`: `0xABCD` in the run-time build on a little-endian machine. -/
theorem raw_view_16_witness :
    (0xABCD < 65536 ∧ Agrees ⟨false, false, true, false⟩ Host.little ⟨1, 1, 0⟩) ∧
    BEWORD.whole Host.little
      (BEWORD.ctor ⟨false, false, true, false⟩ Host.little ⟨1, 1, 0⟩ ⟨0, 0⟩ 0xABCD)
      = swap_ushort 0xABCD :=
  ⟨⟨by decide, by decide⟩,
    ((raw_view_16 ⟨false, false, true, false⟩ Host.little ⟨1, 1, 0⟩ ⟨0, 0⟩ 0xABCD
      (by decide) (by decide)).2.2.1 rfl).1⟩

/-! ## Zero predicates -/

theorem word_whole_eq_zero (h : Host) (x : WordUnion) :
    x.whole h = 0 ↔ x.half0 = 0 ∧ x.half1 = 0 := by
  cases h <;> simp only [WordUnion.whole] <;> omega

theorem dword_whole_eq_zero (h : Host) (x : DwordUnion) :
    x.whole h = 0 ↔ x.quarter0 = 0 ∧ x.quarter1 = 0 ∧ x.quarter2 = 0 ∧ x.quarter3 = 0 := by
  cases h <;> simp only [DwordUnion.whole] <;> omega

/-- C12, zero predicates: for each of the four wrappers `W` and every value `v` of its
width, on either byte order of the machine and in every build mode that agrees with it,
`W(v).zero()` is true iff `v == 0` and `W(v).nonzero()` is true iff `v != 0`; in particular
`BEDWORD(0).zero()` is true and `BEDWORD(0).nonzero()` is false. -/
theorem zero_predicates (c : Config) (h : Host) (e : union_endian_union)
    (x0 : WordUnion) (d0 : DwordUnion) (v w : Nat) (hv : v < 65536) (hw : w < 4294967296)
    (ha : Agrees c h e) :
    (BEWORD.zero h (BEWORD.ctor c h e x0 v) ≠ 0 ↔ v = 0) ∧
    (BEWORD.nonzero h (BEWORD.ctor c h e x0 v) ≠ 0 ↔ v ≠ 0) ∧
    (LEWORD.zero h (LEWORD.ctor c h e x0 v) ≠ 0 ↔ v = 0) ∧
    (LEWORD.nonzero h (LEWORD.ctor c h e x0 v) ≠ 0 ↔ v ≠ 0) ∧
    (BEDWORD.zero h (BEDWORD.ctor c h e d0 w) ≠ 0 ↔ w = 0) ∧
    (BEDWORD.nonzero h (BEDWORD.ctor c h e d0 w) ≠ 0 ↔ w ≠ 0) ∧
    (LEDWORD.zero h (LEDWORD.ctor c h e d0 w) ≠ 0 ↔ w = 0) ∧
    (LEDWORD.nonzero h (LEDWORD.ctor c h e d0 w) ≠ 0 ↔ w ≠ 0) ∧
    BEDWORD.zero h (BEDWORD.ctor c h e d0 0) = 1 ∧
    BEDWORD.nonzero h (BEDWORD.ctor c h e d0 0) = 0 := by
  have k1 : WordUnion.whole h (BEWORD.ctor c h e x0 v) = 0 ↔ v = 0 := by
    rw [BEWORD.ctor, BEWORD_set_eq c h e x0 v hv ha, word_whole_eq_zero]
    simp only; omega
  have k2 : WordUnion.whole h (LEWORD.ctor c h e x0 v) = 0 ↔ v = 0 := by
    rw [LEWORD.ctor, LEWORD_set_eq c h e x0 v hv ha, word_whole_eq_zero]
    simp only; omega
  have k3 : DwordUnion.whole h (BEDWORD.ctor c h e d0 w) = 0 ↔ w = 0 := by
    rw [BEDWORD.ctor, BEDWORD_set_eq c h e d0 w hw ha, dword_whole_eq_zero]
    simp only; omega
  have k4 : DwordUnion.whole h (LEDWORD.ctor c h e d0 w) = 0 ↔ w = 0 := by
    rw [LEDWORD.ctor, LEDWORD_set_eq c h e d0 w hw ha, dword_whole_eq_zero]
    simp only; omega
  have k5 : DwordUnion.whole h (BEDWORD.ctor c h e d0 0) = 0 := by
    rw [BEDWORD.ctor, BEDWORD_set_eq c h e d0 0 (by decide) ha]
    cases h <;> simp [DwordUnion.whole]
  refine ⟨?_, ?_, ?_, ?_, ?_, ?_, ?_, ?_, ?_, ?_⟩
  · unfold BEWORD.zero; split <;> simp_all
  · unfold BEWORD.nonzero; split <;> simp_all
  · unfold LEWORD.zero; split <;> simp_all
  · unfold LEWORD.nonzero; split <;> simp_all
  · unfold BEDWORD.zero; split <;> simp_all
  · unfold BEDWORD.nonzero; split <;> simp_all
  · unfold LEDWORD.zero; split <;> simp_all
  · unfold LEDWORD.nonzero; split <;> simp_all
  · simp [BEDWORD.zero, k5]
  · simp [BEDWORD.nonzero, k5]

/-- Instance of `zero_predicates`: `0` and `0x00010000` in the run-time build on a
big-endian machine. -/
theorem zero_predicates_witness :
    (0 < 65536 ∧ 0x10000 < 4294967296 ∧
      Agrees ⟨false, false, true, false⟩ Host.big ⟨1, 0, 1⟩) ∧
    ((BEWORD.zero Host.big
        (BEWORD.ctor ⟨false, false, true, false⟩ Host.big ⟨1, 0, 1⟩ ⟨3, 4⟩ 0) ≠ 0 ↔ 0 = 0) ∧
      (LEDWORD.nonzero Host.big
        (LEDWORD.ctor ⟨false, false, true, false⟩ Host.big ⟨1, 0, 1⟩ ⟨3, 4, 5, 6⟩ 0x10000) ≠ 0
          ↔ 0x10000 ≠ 0)) :=
  ⟨⟨by decide, by decide, by decide⟩,
    (zero_predicates ⟨false, false, true, false⟩ Host.big ⟨1, 0, 1⟩ ⟨3, 4⟩ ⟨3, 4, 5, 6⟩
      0 0x10000 (by decide) (by decide) (by decide)).1,
    (zero_predicates ⟨false, false, true, false⟩ Host.big ⟨1, 0, 1⟩ ⟨3, 4⟩ ⟨3, 4, 5, 6⟩
      0 0x10000 (by decide) (by decide) (by decide)).2.2.2.2.2.2.2.1⟩

/-! ## Equality operators -/

theorem word_setWhole_irrel (h : Host) (x y : WordUnion) (v : Nat) :
    x.setWhole h v = y.setWhole h v := by
  cases h <;> rfl

theorem dword_setWhole_irrel (h : Host) (x y : DwordUnion) (v : Nat) :
    x.setWhole h v = y.setWhole h v := by
  cases h <;> rfl

theorem BEWORD_set_shape (c : Config) (h : Host) (e : union_endian_union) :
    (∀ x v, BEWORD.set c h e x v = x.setWhole h v) ∨
    (∀ x v, BEWORD.set c h e x v = { half0 := v / 256 % 256, half1 := v % 256 }) := by
  by_cases h1 : c._BIG_ENDIAN = true
  · left; intro x v; simp only [BEWORD.set, h1, if_true]
    exact word_setWhole_irrel h _ x v
  · by_cases h2 : (c._RUN_TIME_ENDIAN && big_endian e != 0) = true
    · left; intro x v
      rw [BEWORD.set, if_neg h1, if_pos h2]
      exact word_setWhole_irrel h _ x v
    · right; intro x v
      simp only [BEWORD.set, h1, h2, if_false, Nat.shiftRight_eq_div_pow, Nat.reducePow]
      rw [word_setWhole_whole]
      · rfl
      · constructor <;> simp only <;> omega

theorem LEWORD_set_shape (c : Config) (h : Host) (e : union_endian_union) :
    (∀ x v, LEWORD.set c h e x v = x.setWhole h v) ∨
    (∀ x v, LEWORD.set c h e x v = { half0 := v % 256, half1 := v / 256 % 256 }) := by
  by_cases h1 : c._LITTLE_ENDIAN = true
  · left; intro x v; simp only [LEWORD.set, h1, if_true]
    exact word_setWhole_irrel h _ x v
  · by_cases h2 : (c._RUN_TIME_ENDIAN && little_endian e != 0) = true
    · left; intro x v
      rw [LEWORD.set, if_neg h1, if_pos h2]
      exact word_setWhole_irrel h _ x v
    · right; intro x v
      simp only [LEWORD.set, h1, h2, if_false, Nat.shiftRight_eq_div_pow, Nat.reducePow]
      rw [word_setWhole_whole]
      · rfl
      · constructor <;> simp only <;> omega

theorem BEDWORD_set_shape (c : Config) (h : Host) (e : union_endian_union) :
    (∀ x v, BEDWORD.set c h e x v = x.setWhole h v) ∨
    (∀ x v, BEDWORD.set c h e x v =
      { quarter0 := v / 16777216 % 256, quarter1 := v / 65536 % 256,
        quarter2 := v / 256 % 256, quarter3 := v % 256 }) := by
  by_cases h1 : c._BIG_ENDIAN = true
  · left; intro x v; simp only [BEDWORD.set, h1, if_true]
    exact dword_setWhole_irrel h _ x v
  · by_cases h2 : (c._RUN_TIME_ENDIAN && big_endian e != 0) = true
    · left; intro x v
      rw [BEDWORD.set, if_neg h1, if_pos h2]
      exact dword_setWhole_irrel h _ x v
    · right; intro x v
      simp only [BEDWORD.set, h1, h2, if_false, Nat.shiftRight_eq_div_pow, Nat.reducePow]
      rw [dword_setWhole_whole]
      · rfl
      · refine ⟨?_, ?_, ?_, ?_⟩ <;> simp only <;> omega

theorem LEDWORD_set_shape (c : Config) (h : Host) (e : union_endian_union) :
    (∀ x v, LEDWORD.set c h e x v = x.setWhole h v) ∨
    (∀ x v, LEDWORD.set c h e x v =
      { quarter0 := v % 256, quarter1 := v / 256 % 256,
        quarter2 := v / 65536 % 256, quarter3 := v / 16777216 % 256 }) := by
  by_cases h1 : c._LITTLE_ENDIAN = true
  · left; intro x v; simp only [LEDWORD.set, h1, if_true]
    exact dword_setWhole_irrel h _ x v
  · by_cases h2 : (c._RUN_TIME_ENDIAN && little_endian e != 0) = true
    · left; intro x v
      rw [LEDWORD.set, if_neg h1, if_pos h2]
      exact dword_setWhole_irrel h _ x v
    · right; intro x v
      simp only [LEDWORD.set, h1, h2, if_false, Nat.shiftRight_eq_div_pow, Nat.reducePow]
      rw [dword_setWhole_whole]
      · rfl
      · refine ⟨?_, ?_, ?_, ?_⟩ <;> simp only <;> omega

theorem BEWORD_ctor_inj (c : Config) (h : Host) (e : union_endian_union) (x0 y0 : WordUnion)
    (a b : Nat) (ha : a < 65536) (hb : b < 65536) :
    ((BEWORD.ctor c h e x0 a).whole h = (BEWORD.ctor c h e y0 b).whole h ↔ a = b) ∧
    ((BEWORD.ctor c h e x0 a).bytes = (BEWORD.ctor c h e y0 b).bytes ↔ a = b) := by
  rcases BEWORD_set_shape c h e with hs | hs <;> simp only [BEWORD.ctor, hs] <;>
    cases h <;>
    simp only [WordUnion.setWhole, WordUnion.whole, WordUnion.bytes, List.cons.injEq,
      and_true] <;>
    omega

theorem LEWORD_ctor_inj (c : Config) (h : Host) (e : union_endian_union) (x0 y0 : WordUnion)
    (a b : Nat) (ha : a < 65536) (hb : b < 65536) :
    ((LEWORD.ctor c h e x0 a).whole h = (LEWORD.ctor c h e y0 b).whole h ↔ a = b) ∧
    ((LEWORD.ctor c h e x0 a).bytes = (LEWORD.ctor c h e y0 b).bytes ↔ a = b) := by
  rcases LEWORD_set_shape c h e with hs | hs <;> simp only [LEWORD.ctor, hs] <;>
    cases h <;>
    simp only [WordUnion.setWhole, WordUnion.whole, WordUnion.bytes, List.cons.injEq,
      and_true] <;>
    omega

theorem dword_whole_inj (h : Host) (x y : DwordUnion) (hx : x.IsBytes) (hy : y.IsBytes) :
    x.whole h = y.whole h ↔ x = y := by
  obtain ⟨x0, x1, x2, x3⟩ := x
  obtain ⟨y0, y1, y2, y3⟩ := y
  obtain ⟨p0, p1, p2, p3⟩ := hx
  obtain ⟨q0, q1, q2, q3⟩ := hy
  simp only at p0 p1 p2 p3 q0 q1 q2 q3
  cases h <;> simp only [DwordUnion.whole, DwordUnion.mk.injEq] <;> omega

theorem dword_bytes_eq (x y : DwordUnion) : x.bytes = y.bytes ↔ x = y := by
  obtain ⟨x0, x1, x2, x3⟩ := x
  obtain ⟨y0, y1, y2, y3⟩ := y
  simp [DwordUnion.bytes]

theorem BEDWORD_ctor_inj (c : Config) (h : Host) (e : union_endian_union)
    (x0 y0 : DwordUnion) (a b : Nat) (ha : a < 4294967296) (hb : b < 4294967296) :
    ((BEDWORD.ctor c h e x0 a).whole h = (BEDWORD.ctor c h e y0 b).whole h ↔ a = b) ∧
    ((BEDWORD.ctor c h e x0 a).bytes = (BEDWORD.ctor c h e y0 b).bytes ↔ a = b) := by
  have key : ∀ p q : DwordUnion, p.IsBytes → q.IsBytes → (p = q ↔ a = b) →
      ((p.whole h = q.whole h ↔ a = b) ∧ (p.bytes = q.bytes ↔ a = b)) :=
    fun p q hp hq hpq =>
      ⟨(dword_whole_inj h p q hp hq).trans hpq, (dword_bytes_eq p q).trans hpq⟩
  rcases BEDWORD_set_shape c h e with hs | hs <;> simp only [BEDWORD.ctor, hs] <;>
    apply key <;> cases h <;>
    simp only [DwordUnion.setWhole, DwordUnion.IsBytes, DwordUnion.mk.injEq] <;> omega

theorem LEDWORD_ctor_inj (c : Config) (h : Host) (e : union_endian_union)
    (x0 y0 : DwordUnion) (a b : Nat) (ha : a < 4294967296) (hb : b < 4294967296) :
    ((LEDWORD.ctor c h e x0 a).whole h = (LEDWORD.ctor c h e y0 b).whole h ↔ a = b) ∧
    ((LEDWORD.ctor c h e x0 a).bytes = (LEDWORD.ctor c h e y0 b).bytes ↔ a = b) := by
  have key : ∀ p q : DwordUnion, p.IsBytes → q.IsBytes → (p = q ↔ a = b) →
      ((p.whole h = q.whole h ↔ a = b) ∧ (p.bytes = q.bytes ↔ a = b)) :=
    fun p q hp hq hpq =>
      ⟨(dword_whole_inj h p q hp hq).trans hpq, (dword_bytes_eq p q).trans hpq⟩
  rcases LEDWORD_set_shape c h e with hs | hs <;> simp only [LEDWORD.ctor, hs] <;>
    apply key <;> cases h <;>
    simp only [DwordUnion.setWhole, DwordUnion.IsBytes, DwordUnion.mk.injEq] <;> omega

/-- C13, equality is structural and value-equivalent: for each of the four wrappers `W` and
all values `a`, `b` of its width, on either byte order of the machine and in any build
mode, `W(a) == W(b)` is true iff the stored bytes are identical iff `a == b`, and
`W(a) != W(b)` is true exactly when `W(a) == W(b)` is false. -/
theorem equality_structural (c : Config) (h : Host) (e : union_endian_union)
    (x0 y0 : WordUnion) (d0 f0 : DwordUnion) (a b p q : Nat)
    (ha : a < 65536) (hb : b < 65536) (hp : p < 4294967296) (hq : q < 4294967296) :
    ((BEWORD.operator_eq h (BEWORD.ctor c h e x0 a) (BEWORD.ctor c h e y0 b) ≠ 0 ↔
        (BEWORD.ctor c h e x0 a).bytes = (BEWORD.ctor c h e y0 b).bytes) ∧
      ((BEWORD.ctor c h e x0 a).bytes = (BEWORD.ctor c h e y0 b).bytes ↔ a = b) ∧
      (BEWORD.operator_ne h (BEWORD.ctor c h e x0 a) (BEWORD.ctor c h e y0 b) ≠ 0 ↔
        BEWORD.operator_eq h (BEWORD.ctor c h e x0 a) (BEWORD.ctor c h e y0 b) = 0)) ∧
    ((LEWORD.operator_eq h (LEWORD.ctor c h e x0 a) (LEWORD.ctor c h e y0 b) ≠ 0 ↔
        (LEWORD.ctor c h e x0 a).bytes = (LEWORD.ctor c h e y0 b).bytes) ∧
      ((LEWORD.ctor c h e x0 a).bytes = (LEWORD.ctor c h e y0 b).bytes ↔ a = b) ∧
      (LEWORD.operator_ne h (LEWORD.ctor c h e x0 a) (LEWORD.ctor c h e y0 b) ≠ 0 ↔
        LEWORD.operator_eq h (LEWORD.ctor c h e x0 a) (LEWORD.ctor c h e y0 b) = 0)) ∧
    ((BEDWORD.operator_eq h (BEDWORD.ctor c h e d0 p) (BEDWORD.ctor c h e f0 q) ≠ 0 ↔
        (BEDWORD.ctor c h e d0 p).bytes = (BEDWORD.ctor c h e f0 q).bytes) ∧
      ((BEDWORD.ctor c h e d0 p).bytes = (BEDWORD.ctor c h e f0 q).bytes ↔ p = q) ∧
      (BEDWORD.operator_ne h (BEDWORD.ctor c h e d0 p) (BEDWORD.ctor c h e f0 q) ≠ 0 ↔
        BEDWORD.operator_eq h (BEDWORD.ctor c h e d0 p) (BEDWORD.ctor c h e f0 q) = 0)) ∧
    ((LEDWORD.operator_eq h (LEDWORD.ctor c h e d0 p) (LEDWORD.ctor c h e f0 q) ≠ 0 ↔
        (LEDWORD.ctor c h e d0 p).bytes = (LEDWORD.ctor c h e f0 q).bytes) ∧
      ((LEDWORD.ctor c h e d0 p).bytes = (LEDWORD.ctor c h e f0 q).bytes ↔ p = q) ∧
      (LEDWORD.operator_ne h (LEDWORD.ctor c h e d0 p) (LEDWORD.ctor c h e f0 q) ≠ 0 ↔
        LEDWORD.operator_eq h (LEDWORD.ctor c h e d0 p) (LEDWORD.ctor c h e f0 q) = 0)) := by
  obtain ⟨w1, b1⟩ := BEWORD_ctor_inj c h e x0 y0 a b ha hb
  obtain ⟨w2, b2⟩ := LEWORD_ctor_inj c h e x0 y0 a b ha hb
  obtain ⟨w3, b3⟩ := BEDWORD_ctor_inj c h e d0 f0 p q hp hq
  obtain ⟨w4, b4⟩ := LEDWORD_ctor_inj c h e d0 f0 p q hp hq
  refine ⟨⟨?_, b1, ?_⟩, ⟨?_, b2, ?_⟩, ⟨?_, b3, ?_⟩, ⟨?_, b4, ?_⟩⟩
  · rw [b1, ← w1]; unfold BEWORD.operator_eq; split <;> simp_all
  · unfold BEWORD.operator_ne BEWORD.operator_eq; split <;> simp_all
  · rw [b2, ← w2]; unfold LEWORD.operator_eq; split <;> simp_all
  · unfold LEWORD.operator_ne LEWORD.operator_eq; split <;> simp_all
  · rw [b3, ← w3]; unfold BEDWORD.operator_eq; split <;> simp_all
  · unfold BEDWORD.operator_ne BEDWORD.operator_eq; split <;> simp_all
  · rw [b4, ← w4]; unfold LEDWORD.operator_eq; split <;> simp_all
  · unfold LEDWORD.operator_ne LEDWORD.operator_eq; split <;> simp_all

/-- Instance of `equality_structural`: `0x1234` against `0x3412` and `0x01000000` against
itself, in the `_BIG_ENDIAN` build on a big-endian machine. -/
theorem equality_structural_witness :
    (0x1234 < 65536 ∧ 0x3412 < 65536 ∧ 0x01000000 < 4294967296 ∧
      0x01000000 < 4294967296) ∧
    (((BEWORD.ctor ⟨true, false, false, false⟩ Host.big ⟨0, 0, 0⟩ ⟨0, 0⟩ 0x1234).bytes =
        (BEWORD.ctor ⟨true, false, false, false⟩ Host.big ⟨0, 0, 0⟩ ⟨9, 9⟩ 0x3412).bytes ↔
        0x1234 = 0x3412) ∧
      (LEDWORD.operator_eq Host.big
          (LEDWORD.ctor ⟨true, false, false, false⟩ Host.big ⟨0, 0, 0⟩ ⟨0, 0, 0, 0⟩ 0x01000000)
          (LEDWORD.ctor ⟨true, false, false, false⟩ Host.big ⟨0, 0, 0⟩ ⟨1, 2, 3, 4⟩ 0x01000000)
          ≠ 0 ↔
        (LEDWORD.ctor ⟨true, false, false, false⟩ Host.big ⟨0, 0, 0⟩ ⟨0, 0, 0, 0⟩
            0x01000000).bytes =
          (LEDWORD.ctor ⟨true, false, false, false⟩ Host.big ⟨0, 0, 0⟩ ⟨1, 2, 3, 4⟩
            0x01000000).bytes)) :=
  ⟨⟨by decide, by decide, by decide, by decide⟩,
    (equality_structural ⟨true, false, false, false⟩ Host.big ⟨0, 0, 0⟩ ⟨0, 0⟩ ⟨9, 9⟩
      ⟨0, 0, 0, 0⟩ ⟨1, 2, 3, 4⟩ 0x1234 0x3412 0x01000000 0x01000000
      (by decide) (by decide) (by decide) (by decide)).1.2.1,
    (equality_structural ⟨true, false, false, false⟩ Host.big ⟨0, 0, 0⟩ ⟨0, 0⟩ ⟨9, 9⟩
      ⟨0, 0, 0, 0⟩ ⟨1, 2, 3, 4⟩ 0x1234 0x3412 0x01000000 0x01000000
      (by decide) (by decide) (by decide) (by decide)).2.2.2.1⟩

/-! ## Strategy equivalence -/

/-- C14, strategy equivalence: on a machine of byte order `h`, a build `cf` with the fixed
macro that matches `h` and a `_RUN_TIME_ENDIAN` build `cr` with a correct probe `e` leave
identical stored bytes after `set(v)` for every `v` (hence identical `whole()`), and return
identical `val()` for every stored byte content, for each of the four wrappers.  `whole()`
has no conditional code: it is a function of the machine and the stored bytes only.  The
fixed build does not read the probe (`e0` is arbitrary). -/
theorem strategy_equivalence (cf cr : Config) (h : Host) (e0 e : union_endian_union)
    (x : WordUnion) (d : DwordUnion) (v w : Nat)
    (hf : Agrees cf h e0) (_hfix : cf._RUN_TIME_ENDIAN = false)
    (hr : Agrees cr h e) (_hrun : cr._RUN_TIME_ENDIAN = true)
    (hv : v < 65536) (hw : w < 4294967296) (hx : x.IsBytes) (hd : d.IsBytes) :
    (BEWORD.set cf h e0 x v = BEWORD.set cr h e x v ∧
      BEWORD.val cf h e0 x = BEWORD.val cr h e x ∧
      BEWORD.whole h (BEWORD.set cf h e0 x v) = BEWORD.whole h (BEWORD.set cr h e x v)) ∧
    (LEWORD.set cf h e0 x v = LEWORD.set cr h e x v ∧
      LEWORD.val cf h e0 x = LEWORD.val cr h e x ∧
      LEWORD.whole h (LEWORD.set cf h e0 x v) = LEWORD.whole h (LEWORD.set cr h e x v)) ∧
    (BEDWORD.set cf h e0 d w = BEDWORD.set cr h e d w ∧
      BEDWORD.val cf h e0 d = BEDWORD.val cr h e d ∧
      BEDWORD.whole h (BEDWORD.set cf h e0 d w) = BEDWORD.whole h (BEDWORD.set cr h e d w)) ∧
    (LEDWORD.set cf h e0 d w = LEDWORD.set cr h e d w ∧
      LEDWORD.val cf h e0 d = LEDWORD.val cr h e d ∧
      LEDWORD.whole h (LEDWORD.set cf h e0 d w) = LEDWORD.whole h (LEDWORD.set cr h e d w)) := by
  refine ⟨⟨?_, ?_, ?_⟩, ⟨?_, ?_, ?_⟩, ⟨?_, ?_, ?_⟩, ⟨?_, ?_, ?_⟩⟩
  · rw [BEWORD_set_eq cf h e0 x v hv hf, BEWORD_set_eq cr h e x v hv hr]
  · rw [BEWORD_val_eq cf h e0 x hx hf, BEWORD_val_eq cr h e x hx hr]
  · rw [BEWORD_set_eq cf h e0 x v hv hf, BEWORD_set_eq cr h e x v hv hr]
  · rw [LEWORD_set_eq cf h e0 x v hv hf, LEWORD_set_eq cr h e x v hv hr]
  · rw [LEWORD_val_eq cf h e0 x hx hf, LEWORD_val_eq cr h e x hx hr]
  · rw [LEWORD_set_eq cf h e0 x v hv hf, LEWORD_set_eq cr h e x v hv hr]
  · rw [BEDWORD_set_eq cf h e0 d w hw hf, BEDWORD_set_eq cr h e d w hw hr]
  · rw [BEDWORD_val_eq cf h e0 d hd hf, BEDWORD_val_eq cr h e d hd hr]
  · rw [BEDWORD_set_eq cf h e0 d w hw hf, BEDWORD_set_eq cr h e d w hw hr]
  · rw [LEDWORD_set_eq cf h e0 d w hw hf, LEDWORD_set_eq cr h e d w hw hr]
  · rw [LEDWORD_val_eq cf h e0 d hd hf, LEDWORD_val_eq cr h e d hd hr]
  · rw [LEDWORD_set_eq cf h e0 d w hw hf, LEDWORD_set_eq cr h e d w hw hr]

/-- Instance of `strategy_equivalence`: the `_LITTLE_ENDIAN` build against the run-time
build on a little-endian machine. -/
theorem strategy_equivalence_witness :
    (Agrees ⟨false, true, false, false⟩ Host.little ⟨0, 0, 0⟩ ∧
      Agrees ⟨false, false, true, false⟩ Host.little ⟨1, 1, 0⟩ ∧
      0xABCD < 65536 ∧ 0x89ABCDEF < 4294967296 ∧
      WordUnion.IsBytes ⟨0x12, 0xFE⟩ ∧ DwordUnion.IsBytes ⟨0x12, 0xFE, 0x00, 0x80⟩) ∧
    (BEWORD.set ⟨false, true, false, false⟩ Host.little ⟨0, 0, 0⟩ ⟨0x12, 0xFE⟩ 0xABCD =
        BEWORD.set ⟨false, false, true, false⟩ Host.little ⟨1, 1, 0⟩ ⟨0x12, 0xFE⟩ 0xABCD ∧
      BEWORD.val ⟨false, true, false, false⟩ Host.little ⟨0, 0, 0⟩ ⟨0x12, 0xFE⟩ =
        BEWORD.val ⟨false, false, true, false⟩ Host.little ⟨1, 1, 0⟩ ⟨0x12, 0xFE⟩ ∧
      BEWORD.whole Host.little
          (BEWORD.set ⟨false, true, false, false⟩ Host.little ⟨0, 0, 0⟩ ⟨0x12, 0xFE⟩ 0xABCD) =
        BEWORD.whole Host.little
          (BEWORD.set ⟨false, false, true, false⟩ Host.little ⟨1, 1, 0⟩ ⟨0x12, 0xFE⟩
            0xABCD)) :=
  ⟨⟨by decide, by decide, by decide, by decide, by decide, by decide⟩,
    (strategy_equivalence ⟨false, true, false, false⟩ ⟨false, false, true, false⟩ Host.little
      ⟨0, 0, 0⟩ ⟨1, 1, 0⟩ ⟨0x12, 0xFE⟩ ⟨0x12, 0xFE, 0x00, 0x80⟩ 0xABCD 0x89ABCDEF
      (by decide) rfl (by decide) rfl (by decide) (by decide) (by decide) (by decide)).1⟩

/-! ## Resolver -/

/-- C15, evaluation at the probe object `{1}` (`whole == 1`, `half[0] == 0`,
`half[1] == 0`): the header declares `_endian` as a `struct`, so `half` does not overlay
`whole`, and both `big_endian()` and `little_endian()` return 0 whatever the byte order of
the machine; neither query is nonzero. -/
theorem resolver_queries_at_struct_probe :
    (⟨1, 0, 0⟩ : union_endian_union).whole = 1 ∧
    big_endian ⟨1, 0, 0⟩ = 0 ∧ little_endian ⟨1, 0, 0⟩ = 0 ∧
    ¬ ProbeCorrect Host.big ⟨1, 0, 0⟩ ∧ ¬ ProbeCorrect Host.little ⟨1, 0, 0⟩ := by
  decide

/-! ## Consistency check -/

/-- C16, over-specified configuration is rejected: whenever two or more of `_BIG_ENDIAN`,
`_LITTLE_ENDIAN`, `_RUN_TIME_ENDIAN` are defined (all four such combinations), the
consistency check reaches an `#error`. -/
theorem overspecified_rejected (c : Config) (h : 2 ≤ c.defined) :
    consistency_check c ≠ [] := by
  obtain ⟨b, l, r, m⟩ := c
  cases b <;> cases l <;> cases r <;> cases m <;>
    simp [Config.defined, consistency_check] at h ⊢

/-- Instance of `overspecified_rejected`: all three names defined. -/
theorem overspecified_rejected_witness :
    2 ≤ Config.defined ⟨true, true, true, false⟩ ∧
    consistency_check ⟨true, true, true, false⟩ ≠ [] :=
  ⟨by decide, overspecified_rejected ⟨true, true, true, false⟩ (by decide)⟩

/-- C17 as stated fails: with none of `_BIG_ENDIAN`, `_LITTLE_ENDIAN`, `_RUN_TIME_ENDIAN`
defined the consistency check reaches no `#error`. -/
theorem unspecified_not_rejected :
    Config.defined ⟨false, false, false, false⟩ = 0 ∧
    ¬ (consistency_check ⟨false, false, false, false⟩ ≠ []) := by
  decide

/-- C17 amended: when none of `_BIG_ENDIAN`, `_LITTLE_ENDIAN`, `_RUN_TIME_ENDIAN` is
defined, the consistency check reaches no `#error` and does not reject the build. -/
theorem unspecified_accepted (c : Config) (h : c.defined = 0) :
    consistency_check c = [] := by
  obtain ⟨b, l, r, m⟩ := c
  cases b <;> cases l <;> cases r <;> cases m <;>
    simp [Config.defined, consistency_check] at h ⊢

/-- Instance of `unspecified_accepted`: no name defined. -/
theorem unspecified_accepted_witness :
    Config.defined ⟨false, false, false, false⟩ = 0 ∧
    consistency_check ⟨false, false, false, false⟩ = [] :=
  ⟨by decide, unspecified_accepted ⟨false, false, false, false⟩ (by decide)⟩

/-! ## Fast path against portable path -/

theorem agrees_fixed_big (r : Bool) (e : union_endian_union) :
    Agrees ⟨true, false, false, r⟩ Host.big e :=
  Or.inl ⟨rfl, rfl, rfl, rfl⟩

theorem agrees_fixed_little (e : union_endian_union) :
    Agrees ⟨false, true, false, false⟩ Host.little e :=
  Or.inr (Or.inl ⟨rfl, rfl, rfl, rfl, rfl⟩)

theorem shift16_eq (b1 b0 : Nat) (h1 : b1 < 256) (h0 : b0 < 256) :
    ((b1 <<< 8) ||| b0) % 65536 = b1 * 256 + b0 := by
  rw [Nat.shiftLeft_eq, or_eq_add 8 _ _ (by omega) (by omega)]; omega

/-- C18, fast path equals portable path: for every stored byte content, on a big-endian
machine the `_RUN_TIME_ENDIAN` build computes `BEWORD::val()` as `half[0] << 8 | half[1]`
whatever the probe holds (the guard at line 90 tests `RUN_TIME_ENDIAN`), and that value
equals `x.whole`, which the `big_endian()` fast path would have returned; likewise for each
wrapper the shift-composed value of the stored bytes, as computed by `val()` when no macro
is defined, equals `x.whole` on a machine whose byte order is the order of the wrapper. -/
theorem fast_path_equals_portable (e : union_endian_union) (x : WordUnion) (d : DwordUnion)
    (hx : x.IsBytes) (hd : d.IsBytes) :
    BEWORD.val ⟨false, false, true, false⟩ Host.big e x =
      ((x.half0 <<< 8) ||| x.half1) % 65536 ∧
    BEWORD.val ⟨false, false, true, false⟩ Host.big e x = BEWORD.whole Host.big x ∧
    BEWORD.val ⟨false, false, false, false⟩ Host.big e x = BEWORD.whole Host.big x ∧
    LEWORD.val ⟨false, false, false, false⟩ Host.little e x = LEWORD.whole Host.little x ∧
    BEDWORD.val ⟨false, false, false, false⟩ Host.big e d = BEDWORD.whole Host.big d ∧
    LEDWORD.val ⟨false, false, false, false⟩ Host.little e d =
      LEDWORD.whole Host.little d := by
  have a1 : BEWORD.val ⟨false, false, true, false⟩ Host.big e x =
      ((x.half0 <<< 8) ||| x.half1) % 65536 := by simp [BEWORD.val]
  have a2 : BEWORD.val ⟨false, false, false, false⟩ Host.big e x =
      BEWORD.val ⟨false, true, false, false⟩ Host.little e x := by simp [BEWORD.val]
  have a3 : LEWORD.val ⟨false, false, false, false⟩ Host.little e x =
      LEWORD.val ⟨true, false, false, false⟩ Host.big e x := by simp [LEWORD.val]
  have a4 : BEDWORD.val ⟨false, false, false, false⟩ Host.big e d =
      BEDWORD.val ⟨false, true, false, false⟩ Host.little e d := by simp [BEDWORD.val]
  have a5 : LEDWORD.val ⟨false, false, false, false⟩ Host.little e d =
      LEDWORD.val ⟨true, false, false, false⟩ Host.big e d := by simp [LEDWORD.val]
  refine ⟨a1, ?_, ?_, ?_, ?_, ?_⟩
  · rw [a1, shift16_eq _ _ hx.1 hx.2]; rfl
  · rw [a2, BEWORD_val_eq _ _ e x hx (agrees_fixed_little e)]; rfl
  · rw [a3, LEWORD_val_eq _ _ e x hx (agrees_fixed_big false e)]; rfl
  · rw [a4, BEDWORD_val_eq _ _ e d hd (agrees_fixed_little e)]; rfl
  · rw [a5, LEDWORD_val_eq _ _ e d hd (agrees_fixed_big false e)]; rfl

/-- Instance of `fast_path_equals_portable`: bytes `80 FF` and `FF 00 80 01`, with a probe
that answers big-endian. -/
theorem fast_path_equals_portable_witness :
    (WordUnion.IsBytes ⟨0x80, 0xFF⟩ ∧ DwordUnion.IsBytes ⟨0xFF, 0x00, 0x80, 0x01⟩) ∧
    (BEWORD.val ⟨false, false, true, false⟩ Host.big ⟨1, 0, 1⟩ ⟨0x80, 0xFF⟩ =
        BEWORD.whole Host.big ⟨0x80, 0xFF⟩ ∧
      LEDWORD.val ⟨false, false, false, false⟩ Host.little ⟨1, 0, 1⟩
          ⟨0xFF, 0x00, 0x80, 0x01⟩ =
        LEDWORD.whole Host.little ⟨0xFF, 0x00, 0x80, 0x01⟩) :=
  ⟨⟨by decide, by decide⟩,
    (fast_path_equals_portable ⟨1, 0, 1⟩ ⟨0x80, 0xFF⟩ ⟨0xFF, 0x00, 0x80, 0x01⟩
      (by decide) (by decide)).2.1,
    (fast_path_equals_portable ⟨1, 0, 1⟩ ⟨0x80, 0xFF⟩ ⟨0xFF, 0x00, 0x80, 0x01⟩
      (by decide) (by decide)).2.2.2.2.2⟩

/-! ## Build with no macro defined -/

theorem BEWORD_set_plain (h : Host) (e : union_endian_union) (x : WordUnion) (v : Nat) :
    BEWORD.set ⟨false, false, false, false⟩ h e x v =
      { half0 := v / 256 % 256, half1 := v % 256 } := by
  have k : BEWORD.set ⟨false, false, false, false⟩ h e x v =
      WordUnion.setWhole h x
        (WordUnion.whole h { half0 := v / 256 % 256, half1 := v % 256 }) := by
    simp only [BEWORD.set, Nat.shiftRight_eq_div_pow, Nat.reducePow, Bool.false_eq_true,
      if_false, Bool.false_and]
    exact word_setWhole_irrel h _ _ _
  rw [k, word_setWhole_whole]
  constructor <;> simp only <;> omega

theorem LEWORD_set_plain (h : Host) (e : union_endian_union) (x : WordUnion) (v : Nat) :
    LEWORD.set ⟨false, false, false, false⟩ h e x v =
      { half0 := v % 256, half1 := v / 256 % 256 } := by
  have k : LEWORD.set ⟨false, false, false, false⟩ h e x v =
      WordUnion.setWhole h x
        (WordUnion.whole h { half0 := v % 256, half1 := v / 256 % 256 }) := by
    simp only [LEWORD.set, Nat.shiftRight_eq_div_pow, Nat.reducePow, Bool.false_eq_true,
      if_false, Bool.false_and]
    exact word_setWhole_irrel h _ _ _
  rw [k, word_setWhole_whole]
  constructor <;> simp only <;> omega

theorem BEDWORD_set_plain (h : Host) (e : union_endian_union) (x : DwordUnion) (v : Nat) :
    BEDWORD.set ⟨false, false, false, false⟩ h e x v =
      { quarter0 := v / 16777216 % 256, quarter1 := v / 65536 % 256,
        quarter2 := v / 256 % 256, quarter3 := v % 256 } := by
  have k : BEDWORD.set ⟨false, false, false, false⟩ h e x v =
      DwordUnion.setWhole h x
        (DwordUnion.whole h
          { quarter0 := v / 16777216 % 256, quarter1 := v / 65536 % 256,
            quarter2 := v / 256 % 256, quarter3 := v % 256 }) := by
    simp only [BEDWORD.set, Nat.shiftRight_eq_div_pow, Nat.reducePow, Bool.false_eq_true,
      if_false, Bool.false_and]
    exact dword_setWhole_irrel h _ _ _
  rw [k, dword_setWhole_whole]
  refine ⟨?_, ?_, ?_, ?_⟩ <;> simp only <;> omega

theorem LEDWORD_set_plain (h : Host) (e : union_endian_union) (x : DwordUnion) (v : Nat) :
    LEDWORD.set ⟨false, false, false, false⟩ h e x v =
      { quarter0 := v % 256, quarter1 := v / 256 % 256,
        quarter2 := v / 65536 % 256, quarter3 := v / 16777216 % 256 } := by
  have k : LEDWORD.set ⟨false, false, false, false⟩ h e x v =
      DwordUnion.setWhole h x
        (DwordUnion.whole h
          { quarter0 := v % 256, quarter1 := v / 256 % 256,
            quarter2 := v / 65536 % 256, quarter3 := v / 16777216 % 256 }) := by
    simp only [LEDWORD.set, Nat.shiftRight_eq_div_pow, Nat.reducePow, Bool.false_eq_true,
      if_false, Bool.false_and]
    exact dword_setWhole_irrel h _ _ _
  rw [k, dword_setWhole_whole]
  refine ⟨?_, ?_, ?_, ?_⟩ <;> simp only <;> omega

theorem BEWORD_val_plain (h : Host) (e : union_endian_union) (x : WordUnion)
    (hx : x.IsBytes) :
    BEWORD.val ⟨false, false, false, false⟩ h e x = x.half0 * 256 + x.half1 := by
  have k : BEWORD.val ⟨false, false, false, false⟩ h e x =
      BEWORD.val ⟨false, true, false, false⟩ Host.little e x := by simp [BEWORD.val]
  rw [k, BEWORD_val_eq _ _ e x hx (agrees_fixed_little e)]

theorem LEWORD_val_plain (h : Host) (e : union_endian_union) (x : WordUnion)
    (hx : x.IsBytes) :
    LEWORD.val ⟨false, false, false, false⟩ h e x = x.half1 * 256 + x.half0 := by
  have k : LEWORD.val ⟨false, false, false, false⟩ h e x =
      LEWORD.val ⟨true, false, false, false⟩ Host.big e x := by simp [LEWORD.val]
  rw [k, LEWORD_val_eq _ _ e x hx (agrees_fixed_big false e)]

theorem BEDWORD_val_plain (h : Host) (e : union_endian_union) (x : DwordUnion)
    (hx : x.IsBytes) :
    BEDWORD.val ⟨false, false, false, false⟩ h e x =
      x.quarter0 * 16777216 + x.quarter1 * 65536 + x.quarter2 * 256 + x.quarter3 := by
  have k : BEDWORD.val ⟨false, false, false, false⟩ h e x =
      BEDWORD.val ⟨false, true, false, false⟩ Host.little e x := by simp [BEDWORD.val]
  rw [k, BEDWORD_val_eq _ _ e x hx (agrees_fixed_little e)]

theorem LEDWORD_val_plain (h : Host) (e : union_endian_union) (x : DwordUnion)
    (hx : x.IsBytes) :
    LEDWORD.val ⟨false, false, false, false⟩ h e x =
      x.quarter3 * 16777216 + x.quarter2 * 65536 + x.quarter1 * 256 + x.quarter0 := by
  have k : LEDWORD.val ⟨false, false, false, false⟩ h e x =
      LEDWORD.val ⟨true, false, false, false⟩ Host.big e x := by simp [LEDWORD.val]
  rw [k, LEDWORD_val_eq _ _ e x hx (agrees_fixed_big false e)]

/-- C19, the build with no macro defined is host-independent: when none of `_BIG_ENDIAN`,
`_LITTLE_ENDIAN`, `_RUN_TIME_ENDIAN` (nor `RUN_TIME_ENDIAN`) is defined, for every value of
the width of the wrapper and on both byte orders of the machine, the stored bytes after
`set(v)` are the decomposition of `v` in the order of the wrapper and `val()` returns `v`;
the stored bytes and the result of `val()` are the same on a big-endian and on a
little-endian machine. -/
theorem no_macro_host_independent (h : Host) (e : union_endian_union) (x : WordUnion)
    (d : DwordUnion) (v w : Nat) (hv : v < 65536) (hw : w < 4294967296) :
    ((BEWORD.set ⟨false, false, false, false⟩ h e x v).bytes = [v >>> 8, v &&& 0xFF] ∧
      BEWORD.val ⟨false, false, false, false⟩ h e
        (BEWORD.set ⟨false, false, false, false⟩ h e x v) = v) ∧
    ((LEWORD.set ⟨false, false, false, false⟩ h e x v).bytes = [v &&& 0xFF, v >>> 8] ∧
      LEWORD.val ⟨false, false, false, false⟩ h e
        (LEWORD.set ⟨false, false, false, false⟩ h e x v) = v) ∧
    ((BEDWORD.set ⟨false, false, false, false⟩ h e d w).bytes =
        [w >>> 24, (w >>> 16) &&& 0xFF, (w >>> 8) &&& 0xFF, w &&& 0xFF] ∧
      BEDWORD.val ⟨false, false, false, false⟩ h e
        (BEDWORD.set ⟨false, false, false, false⟩ h e d w) = w) ∧
    ((LEDWORD.set ⟨false, false, false, false⟩ h e d w).bytes =
        [w &&& 0xFF, (w >>> 8) &&& 0xFF, (w >>> 16) &&& 0xFF, w >>> 24] ∧
      LEDWORD.val ⟨false, false, false, false⟩ h e
        (LEDWORD.set ⟨false, false, false, false⟩ h e d w) = w) ∧
    (BEWORD.set ⟨false, false, false, false⟩ Host.big e x v =
        BEWORD.set ⟨false, false, false, false⟩ Host.little e x v ∧
      LEWORD.set ⟨false, false, false, false⟩ Host.big e x v =
        LEWORD.set ⟨false, false, false, false⟩ Host.little e x v ∧
      BEDWORD.set ⟨false, false, false, false⟩ Host.big e d w =
        BEDWORD.set ⟨false, false, false, false⟩ Host.little e d w ∧
      LEDWORD.set ⟨false, false, false, false⟩ Host.big e d w =
        LEDWORD.set ⟨false, false, false, false⟩ Host.little e d w) := by
  refine ⟨⟨?_, ?_⟩, ⟨?_, ?_⟩, ⟨?_, ?_⟩, ⟨?_, ?_⟩, ?_, ?_, ?_, ?_⟩
  · rw [BEWORD_set_plain]
    simp only [WordUnion.bytes, and_ff, Nat.shiftRight_eq_div_pow, Nat.reducePow,
      List.cons.injEq, and_true, true_and]
    omega
  · rw [BEWORD_set_plain, BEWORD_val_plain]
    · simp only; omega
    · constructor <;> simp only <;> omega
  · rw [LEWORD_set_plain]
    simp only [WordUnion.bytes, and_ff, Nat.shiftRight_eq_div_pow, Nat.reducePow,
      List.cons.injEq, and_true, true_and]
    omega
  · rw [LEWORD_set_plain, LEWORD_val_plain]
    · simp only; omega
    · constructor <;> simp only <;> omega
  · rw [BEDWORD_set_plain]
    simp only [DwordUnion.bytes, and_ff, Nat.shiftRight_eq_div_pow, Nat.reducePow,
      List.cons.injEq, and_true, true_and]
    omega
  · rw [BEDWORD_set_plain, BEDWORD_val_plain]
    · simp only; omega
    · refine ⟨?_, ?_, ?_, ?_⟩ <;> simp only <;> omega
  · rw [LEDWORD_set_plain]
    simp only [DwordUnion.bytes, and_ff, Nat.shiftRight_eq_div_pow, Nat.reducePow,
      List.cons.injEq, and_true, true_and]
    omega
  · rw [LEDWORD_set_plain, LEDWORD_val_plain]
    · simp only; omega
    · refine ⟨?_, ?_, ?_, ?_⟩ <;> simp only <;> omega
  · rw [BEWORD_set_plain, BEWORD_set_plain]
  · rw [LEWORD_set_plain, LEWORD_set_plain]
  · rw [BEDWORD_set_plain, BEDWORD_set_plain]
  · rw [LEDWORD_set_plain, LEDWORD_set_plain]

/-- Instance of `no_macro_host_independent`: `0xABCD` and `0x89ABCDEF` on a big-endian
machine. -/
theorem no_macro_host_independent_witness :
    (0xABCD < 65536 ∧ 0x89ABCDEF < 4294967296) ∧
    ((BEWORD.set ⟨false, false, false, false⟩ Host.big ⟨0, 0, 0⟩ ⟨1, 2⟩ 0xABCD).bytes =
        [0xABCD >>> 8, 0xABCD &&& 0xFF] ∧
      BEWORD.val ⟨false, false, false, false⟩ Host.big ⟨0, 0, 0⟩
        (BEWORD.set ⟨false, false, false, false⟩ Host.big ⟨0, 0, 0⟩ ⟨1, 2⟩ 0xABCD) =
        0xABCD) :=
  ⟨⟨by decide, by decide⟩,
    (no_macro_host_independent Host.big ⟨0, 0, 0⟩ ⟨1, 2⟩ ⟨1, 2, 3, 4⟩ 0xABCD 0x89ABCDEF
      (by decide) (by decide)).1⟩

/-! ## 32-bit cross-order consistency -/

theorem BEDWORD_whole_ctor (c : Config) (h : Host) (e : union_endian_union) (d0 : DwordUnion)
    (v : Nat) (hv : v < 4294967296) (ha : Agrees c h e) :
    BEDWORD.whole h (BEDWORD.ctor c h e d0 v) =
      match h with
      | Host.big => v
      | Host.little => swap_uint v := by
  rw [BEDWORD.ctor, BEDWORD_set_eq c h e d0 v hv ha]
  cases h <;> simp only [BEDWORD.whole, DwordUnion.whole]
  · omega
  · rw [swap_uint_eq v hv]

theorem LEDWORD_whole_ctor (c : Config) (h : Host) (e : union_endian_union) (d0 : DwordUnion)
    (v : Nat) (hv : v < 4294967296) (ha : Agrees c h e) :
    LEDWORD.whole h (LEDWORD.ctor c h e d0 v) =
      match h with
      | Host.big => swap_uint v
      | Host.little => v := by
  rw [LEDWORD.ctor, LEDWORD_set_eq c h e d0 v hv ha]
  cases h <;> simp only [LEDWORD.whole, DwordUnion.whole]
  · rw [swap_uint_eq v hv]
  · omega

/-- C20, 32-bit cross-order consistency: for every 32-bit value `v`, on either byte order of
the machine and in every build mode that agrees with it,
`BEDWORD(v).whole() == swap_uint(LEDWORD(v).whole())`; the wrapper whose order differs from
the machine has `whole() == swap_uint(v)` and the one whose order matches has
`whole() == v`. -/
theorem cross_order_32 (c : Config) (h : Host) (e : union_endian_union)
    (d0 f0 : DwordUnion) (v : Nat) (hv : v < 4294967296) (ha : Agrees c h e) :
    BEDWORD.whole h (BEDWORD.ctor c h e d0 v) =
      swap_uint (LEDWORD.whole h (LEDWORD.ctor c h e f0 v)) ∧
    (h = Host.big →
      BEDWORD.whole h (BEDWORD.ctor c h e d0 v) = v ∧
      LEDWORD.whole h (LEDWORD.ctor c h e f0 v) = swap_uint v) ∧
    (h = Host.little →
      BEDWORD.whole h (BEDWORD.ctor c h e d0 v) = swap_uint v ∧
      LEDWORD.whole h (LEDWORD.ctor c h e f0 v) = v) := by
  have hb := BEDWORD_whole_ctor c h e d0 v hv ha
  have hl := LEDWORD_whole_ctor c h e f0 v hv ha
  refine ⟨?_, ?_, ?_⟩
  · rw [hb, hl]
    cases h
    · exact (swap_uint_twice v hv).symm
    · rfl
  · rintro rfl
    exact ⟨hb, hl⟩
  · rintro rfl
    exact ⟨hb, hl⟩

/-- Instance of `cross_order_32`: `0x12345678` in the run-time build on a big-endian
machine. -/
theorem cross_order_32_witness :
    (0x12345678 < 4294967296 ∧ Agrees ⟨false, false, true, false⟩ Host.big ⟨1, 0, 1⟩) ∧
    BEDWORD.whole Host.big
        (BEDWORD.ctor ⟨false, false, true, false⟩ Host.big ⟨1, 0, 1⟩ ⟨0, 0, 0, 0⟩
          0x12345678) =
      swap_uint (LEDWORD.whole Host.big
        (LEDWORD.ctor ⟨false, false, true, false⟩ Host.big ⟨1, 0, 1⟩ ⟨9, 9, 9, 9⟩
          0x12345678)) :=
  ⟨⟨by decide, by decide⟩,
    (cross_order_32 ⟨false, false, true, false⟩ Host.big ⟨1, 0, 1⟩ ⟨0, 0, 0, 0⟩ ⟨9, 9, 9, 9⟩
      0x12345678 (by decide) (by decide)).1⟩

end Endian
